import Mathlib

/-!
Verification of the OCR pipeline in `OCR.py` (Multimodal Reasoning Pipe).

The Python code works on JSON-like values (dicts, lists, strings, numbers,
booleans, None).  We embed those values as the inductive type `JVal` and
translate every function the claims touch directly from the source:
`_extract_image_artifacts`, `_normalize_to_image_content_parts_inline`,
`_parse_ocr_structured_output` (with its category normalization),
`_extract_text_from_response`, `_sanitize_messages_for_main`, the truncation
fragments, `_emit_status_once`, and the `pipe` orchestration itself (as a
pure function of an oracle standing for `generate_chat_completion`).

Modelling notes (all deliberate, each noted again at its use site):
* Strings are treated at the level of their character lists; Python's
  `str.strip`/`str.lower`/`str.splitlines` are modelled for the ASCII
  whitespace and line-break characters.
* Python code that can raise is modelled with `Option`/`Except`; a `none`
  result means the corresponding Python code raises an exception.
* `str()` applied to containers is abbreviated (`<list>`/`<dict>`); every use
  in this file only compares the result against fixed marker strings or uses
  it as a deduplication key, and no theorem below exercises container-valued
  keys in that role.
-/

set_option maxHeartbeats 1000000

namespace OWUI

/-- A JSON-like Python value: `None`, `bool`, `int`, `str`, `list`, `dict`.
Dicts are association lists; Python dicts have unique keys and preserve
insertion order, which the list representation refines (lookup takes the
first matching pair). -/
inductive JVal where
  | null : JVal
  | bool : Bool → JVal
  | num : Int → JVal
  | str : String → JVal
  | list : List JVal → JVal
  | obj : List (String × JVal) → JVal

mutual

/-- Structural (Python `==`) equality on `JVal` is decidable. -/
def JVal.decEq : (a b : JVal) → Decidable (a = b)
  | .null, .null => .isTrue rfl
  | .bool x, .bool y =>
    if h : x = y then .isTrue (by rw [h]) else .isFalse (fun he => by simp at he; exact h he)
  | .num x, .num y =>
    if h : x = y then .isTrue (by rw [h]) else .isFalse (fun he => by simp at he; exact h he)
  | .str x, .str y =>
    if h : x = y then .isTrue (by rw [h]) else .isFalse (fun he => by simp at he; exact h he)
  | .list xs, .list ys =>
    match decEqJList xs ys with
    | .isTrue h => .isTrue (by rw [h])
    | .isFalse h => .isFalse (fun he => by simp at he; exact h he)
  | .obj xs, .obj ys =>
    match decEqJObj xs ys with
    | .isTrue h => .isTrue (by rw [h])
    | .isFalse h => .isFalse (fun he => by simp at he; exact h he)
  | .null, .bool _ => .isFalse (fun h => JVal.noConfusion h)
  | .null, .num _ => .isFalse (fun h => JVal.noConfusion h)
  | .null, .str _ => .isFalse (fun h => JVal.noConfusion h)
  | .null, .list _ => .isFalse (fun h => JVal.noConfusion h)
  | .null, .obj _ => .isFalse (fun h => JVal.noConfusion h)
  | .bool _, .null => .isFalse (fun h => JVal.noConfusion h)
  | .bool _, .num _ => .isFalse (fun h => JVal.noConfusion h)
  | .bool _, .str _ => .isFalse (fun h => JVal.noConfusion h)
  | .bool _, .list _ => .isFalse (fun h => JVal.noConfusion h)
  | .bool _, .obj _ => .isFalse (fun h => JVal.noConfusion h)
  | .num _, .null => .isFalse (fun h => JVal.noConfusion h)
  | .num _, .bool _ => .isFalse (fun h => JVal.noConfusion h)
  | .num _, .str _ => .isFalse (fun h => JVal.noConfusion h)
  | .num _, .list _ => .isFalse (fun h => JVal.noConfusion h)
  | .num _, .obj _ => .isFalse (fun h => JVal.noConfusion h)
  | .str _, .null => .isFalse (fun h => JVal.noConfusion h)
  | .str _, .bool _ => .isFalse (fun h => JVal.noConfusion h)
  | .str _, .num _ => .isFalse (fun h => JVal.noConfusion h)
  | .str _, .list _ => .isFalse (fun h => JVal.noConfusion h)
  | .str _, .obj _ => .isFalse (fun h => JVal.noConfusion h)
  | .list _, .null => .isFalse (fun h => JVal.noConfusion h)
  | .list _, .bool _ => .isFalse (fun h => JVal.noConfusion h)
  | .list _, .num _ => .isFalse (fun h => JVal.noConfusion h)
  | .list _, .str _ => .isFalse (fun h => JVal.noConfusion h)
  | .list _, .obj _ => .isFalse (fun h => JVal.noConfusion h)
  | .obj _, .null => .isFalse (fun h => JVal.noConfusion h)
  | .obj _, .bool _ => .isFalse (fun h => JVal.noConfusion h)
  | .obj _, .num _ => .isFalse (fun h => JVal.noConfusion h)
  | .obj _, .str _ => .isFalse (fun h => JVal.noConfusion h)
  | .obj _, .list _ => .isFalse (fun h => JVal.noConfusion h)
termination_by a _ => sizeOf a

/-- Decidable equality on `List JVal`. -/
def decEqJList : (xs ys : List JVal) → Decidable (xs = ys)
  | [], [] => .isTrue rfl
  | [], _ :: _ => .isFalse (fun h => List.noConfusion h)
  | _ :: _, [] => .isFalse (fun h => List.noConfusion h)
  | x :: xs, y :: ys =>
    match JVal.decEq x y with
    | .isFalse h => .isFalse (fun he => by simp at he; exact h he.1)
    | .isTrue hx =>
      match decEqJList xs ys with
      | .isTrue ht => .isTrue (by rw [hx, ht])
      | .isFalse h => .isFalse (fun he => by simp at he; exact h he.2)
termination_by xs _ => sizeOf xs

/-- Decidable equality on `List (String × JVal)`. -/
def decEqJObj : (xs ys : List (String × JVal)) → Decidable (xs = ys)
  | [], [] => .isTrue rfl
  | [], _ :: _ => .isFalse (fun h => List.noConfusion h)
  | _ :: _, [] => .isFalse (fun h => List.noConfusion h)
  | (k1, v1) :: xs, (k2, v2) :: ys =>
    if hk : k1 = k2 then
      match JVal.decEq v1 v2 with
      | .isFalse h => .isFalse (fun he => by simp at he; exact h he.1.2)
      | .isTrue hv =>
        match decEqJObj xs ys with
        | .isTrue ht => .isTrue (by rw [hk, hv, ht])
        | .isFalse h => .isFalse (fun he => by simp at he; exact h he.2)
    else .isFalse (fun he => by simp at he; exact hk he.1.1)
termination_by xs _ => sizeOf xs

end

instance : DecidableEq JVal := JVal.decEq

/-- Structural (Python `==`/`repr`-level) equality on `JVal` by structural
recursion; unlike the well-founded `JVal.decEq` it reduces inside the
kernel.  It is used where the source compares dict reprs. -/
def jvalBeqF : JVal → JVal → Bool
  | .null, .null => true
  | .bool x, .bool y => x = y
  | .num x, .num y => x = y
  | .str x, .str y => x = y
  | .list xs, .list ys => jlistBeqF xs ys
  | .obj xs, .obj ys => jobjBeqF xs ys
  | _, _ => false
where
  /-- Elementwise structural equality on value lists. -/
  jlistBeqF : List JVal → List JVal → Bool
    | [], [] => true
    | x :: xs, y :: ys => jvalBeqF x y && jlistBeqF xs ys
    | _, _ => false
  /-- Elementwise structural equality on key-value lists. -/
  jobjBeqF : List (String × JVal) → List (String × JVal) → Bool
    | [], [] => true
    | (k1, v1) :: xs, (k2, v2) :: ys => k1 = k2 && jvalBeqF v1 v2 && jobjBeqF xs ys
    | _, _ => false


/-- Python truthiness: `None`, `False`, `0`, `""`, `[]`, `{}` are falsy. -/
def truthy : JVal → Bool
  | .null => false
  | .bool b => b
  | .num n => n ≠ 0
  | .str s => s ≠ ""
  | .list xs => !xs.isEmpty
  | .obj kvs => !kvs.isEmpty

/-- Python `x or y` (on values): returns `x` when truthy, else `y`. -/
def pyOr (x y : JVal) : JVal := if truthy x then x else y

/-- First value bound to key `k` in an association list, if any. -/
def jLookup (k : String) : List (String × JVal) → Option JVal
  | [] => none
  | (k2, v) :: rest => if k2 = k then some v else jLookup k rest

/-- Python `d.get(k)`: `None` when `d` is a dict without the key;
only ever applied to dicts in the source (other receivers raise and are
modelled `none`/error at the call sites that can reach them). -/
def jGet (v : JVal) (k : String) : JVal :=
  match v with
  | .obj kvs => (jLookup k kvs).getD .null
  | _ => .null

/-- Python `d.get(k, default)` distinguishes an absent key from an explicit
`None` value; `jGetOpt` is `none` exactly when the key is absent (or the
receiver is not a dict). -/
def jGetOpt (v : JVal) (k : String) : Option JVal :=
  match v with
  | .obj kvs => jLookup k kvs
  | _ => none

/-- Python `msg.get("role") == r` for a string `r`. -/
def roleIs (m : JVal) (r : String) : Bool :=
  match jGet m "role" with
  | .str s => s = r
  | _ => false

/-- Python `k in d` (key presence, regardless of the value). -/
def jHasKey (v : JVal) (k : String) : Bool :=
  match v with
  | .obj kvs => kvs.any (fun kv => kv.1 = k)
  | _ => false

/-- Python `d[k] = x`: update the first binding in place, else append. -/
def jSetList (kvs : List (String × JVal)) (k : String) (x : JVal) : List (String × JVal) :=
  match kvs with
  | [] => [(k, x)]
  | (k2, v) :: rest => if k2 = k then (k2, x) :: rest else (k2, v) :: jSetList rest k x

/-- Python `d[k] = x` on a dict value (identity on non-dicts; the source
only assigns into dicts). -/
def jSet (v : JVal) (k : String) (x : JVal) : JVal :=
  match v with
  | .obj kvs => .obj (jSetList kvs k x)
  | _ => v

/-- Python `d.pop(k, None)`: drop every binding of `k` (dicts have at most
one). -/
def jErase (v : JVal) (k : String) : JVal :=
  match v with
  | .obj kvs => .obj (kvs.filter (fun kv => kv.1 ≠ k))
  | _ => v

/-- The ASCII whitespace stripped by Python `str.strip()`. -/
def isPySpace (c : Char) : Bool :=
  c = ' ' ∨ c = '\t' ∨ c = '\n' ∨ c = '\r' ∨ c = '\x0b' ∨ c = '\x0c'

/-- Python `str.strip()` on the character list. -/
def stripChars (l : List Char) : List Char :=
  ((l.dropWhile isPySpace).reverse.dropWhile isPySpace).reverse

/-- Python `str.strip()`. -/
def pyStripStr (s : String) : String := ⟨stripChars s.data⟩

/-- Python `str.lower()` (ASCII). -/
def lowerChar (c : Char) : Char := c.toLower

/-- Python `str.lower()` (ASCII). -/
def pyLower (s : String) : String := ⟨s.data.map lowerChar⟩

/-- Python `str(x)` as used by the source: the result is only ever compared
against fixed all-lowercase marker strings (`"image_url"`, …) or used as a
dedup key, so container reprs are abbreviated. -/
def pyStrOf : JVal → String
  | .null => "None"
  | .bool true => "True"
  | .bool false => "False"
  | .num n => toString n
  | .str s => s
  | .list _ => "<list>"
  | .obj _ => "<dict>"

/-- Decides whether `p` is a prefix of `l` (over characters). -/
def listIsPref : List Char → List Char → Bool
  | [], _ => true
  | _ :: _, [] => false
  | a :: as, b :: bs => if a = b then listIsPref as bs else false

/-- Decides whether `p` is a suffix of `l`. -/
def listIsSuffix (p l : List Char) : Bool := listIsPref p.reverse l.reverse

/-- Python `pat in s` (substring test) on character lists. -/
def containsSub (pat : List Char) : List Char → Bool
  | [] => pat.isEmpty
  | c :: rest => listIsPref pat (c :: rest) || containsSub pat rest

/-- Python `s.startswith(p)`. -/
def strStartsWithS (s p : String) : Bool := listIsPref p.data s.data

/-- Characters at which Python `str.splitlines` breaks (ASCII subset). -/
def isLineBreak (c : Char) : Bool :=
  c = '\n' ∨ c = '\r' ∨ c = '\x0b' ∨ c = '\x0c'

/-- Worker for `pySplitlines`: `acc` is the current line, reversed. -/
def slGo : List Char → List Char → List (List Char)
  | [], acc => [acc.reverse]
  | '\r' :: '\n' :: rest, acc =>
    acc.reverse :: (match rest with | [] => [] | _ :: _ => slGo rest [])
  | c :: rest, acc =>
    if isLineBreak c then
      acc.reverse :: (match rest with | [] => [] | _ :: _ => slGo rest [])
    else slGo rest (c :: acc)

/-- Python `str.splitlines()` (ASCII line breaks; a trailing break yields no
extra empty line, and the empty string yields no lines). -/
def pySplitlines (l : List Char) : List (List Char) :=
  match l with
  | [] => []
  | _ :: _ => slGo l []

/-- Join lines with `"\n"` at the character level (Python `"\n".join`). -/
def joinNLc : List (List Char) → List Char
  | [] => []
  | [l] => l
  | l :: ls => l ++ '\n' :: joinNLc ls

/-- Python `"\n".join` on strings. -/
def joinNL : List String → String
  | [] => ""
  | [l] => l
  | l :: ls => l ++ "\n" ++ joinNL ls

/-- Python `sep.join` on strings. -/
def joinSep (sep : String) : List String → String
  | [] => ""
  | [l] => l
  | l :: ls => l ++ sep ++ joinSep sep ls

/-- Python `list(dict.fromkeys(xs))`: first occurrences, order preserved. -/
def dedupFirst : List String → List String :=
  go []
where
  go (seen : List String) : List String → List String
    | [] => []
    | x :: rest => if x ∈ seen then go seen rest else x :: go (x :: seen) rest

/-- A single-quote character, kept out of string literals. -/
def sq : String := ⟨[Char.ofNat 39]⟩

/-! ## Structured-output parser (`_parse_ocr_structured_output`, lines 1021-1119) -/

/-- Match `\s*<kw>\s*:` (case-insensitively) at the start of a line and
return the remainder after the colon. -/
def kwColonRest (kw : List Char) (line : List Char) : Option (List Char) :=
  let l1 := line.dropWhile isPySpace
  if (l1.take kw.length).map lowerChar = kw then
    match (l1.drop kw.length).dropWhile isPySpace with
    | ':' :: rest => some rest
    | _ => none
  else none

/-- The regex `^\s*text\s*:\s*$` (case-insensitive). -/
def isTextHdr (line : List Char) : Bool :=
  match kwColonRest "text".data line with
  | some r => r.all isPySpace
  | none => false

/-- The regex `^\s*description\s*:\s*$` (case-insensitive). -/
def isDescHdr (line : List Char) : Bool :=
  match kwColonRest "description".data line with
  | some r => r.all isPySpace
  | none => false

/-- The regex `^\s*category\s*:\s*(.+?)\s*$` (case-insensitive): the match
requires at least one character after the colon, and the captured group is
the remainder with surrounding whitespace stripped. -/
def catLineVal (line : List Char) : Option String :=
  match kwColonRest "category".data line with
  | some r => if r = [] then none else some ⟨stripChars r⟩
  | none => none

/-- The regex `^\s*---\s*$` (exactly three dashes). -/
def isSepLine (line : List Char) : Bool :=
  match line.dropWhile isPySpace with
  | '-' :: '-' :: '-' :: r => r.all isPySpace
  | _ => false

/-- The line loop of `_parse_ocr_structured_output`.  The Python `current`
variable ranges over `None`/`"text"`/`"description"`; lines are appended to
the description exactly when it is `"description"`, so it is modelled by the
boolean `inDesc` (initially `false`, matching `current = None`). -/
def parseLoop : List (List Char) → Bool → List (List Char) → List (List Char) → String →
    List (List Char) × List (List Char) × String
  | [], _, t, d, c => (t, d, c)
  | l :: rest, inDesc, t, d, c =>
    if isTextHdr l then parseLoop rest false t d c
    else if isDescHdr l then parseLoop rest true t d c
    else
      match catLineVal l with
      | some cv => parseLoop rest inDesc t d cv
      | none =>
        if isSepLine l then parseLoop rest inDesc t d c
        else if inDesc then parseLoop rest inDesc t (d ++ [l]) c
        else parseLoop rest inDesc (t ++ [l]) d c

/-- The closed category set of `_parse_ocr_structured_output`.  The Python
code iterates over a `set`; the fixed order used here is immaterial because
no member of the set is a prefix of another member, so at most one prefix
match can ever occur. -/
def allowedCategories : List String :=
  ["screenshot", "document", "diagram", "math", "slide", "whiteboard",
   "handwritten_note", "photo", "other"]

/-- The category synonym table of `_parse_ocr_structured_output`. -/
def categorySynonyms : List (String × String) :=
  [("handwritten", "handwritten_note"), ("handwriting", "handwritten_note"),
   ("webpage", "screenshot"), ("ui", "screenshot"), ("screen", "screenshot"),
   ("picture", "photo"), ("image", "photo")]

/-- Lookup in the synonym table (Python `synonyms.get(c, c)`). -/
def synLookup (c : String) : List (String × String) → Option String
  | [] => none
  | (k, v) :: rest => if k = c then some v else synLookup c rest

/-- Category normalization block of `_parse_ocr_structured_output`
(lines 1080-1113): strip, lowercase, hyphens/spaces to underscores, synonym
map, membership in the closed set, else prefix match, else empty. -/
def normalizeCategory (category : String) : String :=
  let c := pyLower (pyStripStr category)
  let c : String := ⟨c.data.map (fun ch => if ch = '-' ∨ ch = ' ' then '_' else ch)⟩
  let c := (synLookup c categorySynonyms).getD c
  if c ∈ allowedCategories then c
  else
    match allowedCategories.find? (fun a => strStartsWithS c a) with
    | some a => a
    | none => ""

/-- Description values treated as empty (`n/a`, `na`, `none`,
`no description`). -/
def emptyDescMarkers : List String := ["n/a", "na", "none", "no description"]

/-- The parser `_parse_ocr_structured_output` on a string input: returns
`(text, description, category)`. -/
def parseOcrStructuredOutput (text : String) : String × String × String :=
  let rawL := stripChars text.data
  if rawL = [] then ("", "", "")
  else
    let lowered := rawL.map lowerChar
    let hasMarkers := containsSub "text:".data lowered ||
      containsSub "description:".data lowered || containsSub "category:".data lowered
    if !hasMarkers then (⟨rawL⟩, "", "")
    else
      let res := parseLoop (pySplitlines rawL) false [] [] ""
      let ocrText : String := ⟨stripChars (joinNLc res.1)⟩
      let ocrDesc : String := ⟨stripChars (joinNLc res.2.1)⟩
      let category := res.2.2
      let category := if category ≠ "" then normalizeCategory category else category
      let ocrDesc := if pyLower ocrDesc ∈ emptyDescMarkers then "" else ocrDesc
      (ocrText, ocrDesc, category)

/-- The parser `_parse_ocr_structured_output` on an arbitrary Python value: non-string
input returns the all-empty triple (the `isinstance` guard). -/
def parseOcrOnValue (v : JVal) : String × String × String :=
  match v with
  | .str s => parseOcrStructuredOutput s
  | _ => ("", "", "")

/-! ## Artifact extractor (`_extract_image_artifacts`, lines 771-927)

A `none` result models the Python code raising an exception (`AttributeError`
on `.get`/`.lower` of a non-dict/non-string, `TypeError` on `reversed` of a
non-sequence). -/

/-- The image file-extension regex `\.(jpe?g|png|gif|bmp|webp|tiff)$` with
`re.IGNORECASE`; `$` also matches just before one final newline. -/
def imageExts : List String := [".jpg", ".jpeg", ".png", ".gif", ".bmp", ".webp", ".tiff"]

/-- The test `re.search(r"\.(jpe?g|png|gif|bmp|webp|tiff)$", url, re.IGNORECASE)`. -/
def hasImageExt (url : String) : Bool :=
  let l := (pyLower url).data
  let l := match l.getLast? with
    | some c => if c = '\n' then l.dropLast else l
    | none => l
  imageExts.any (fun e => listIsSuffix e.data l)

/-- URL extracted from one entry of a `message["images"]` list
(lines 800-817): a non-empty string, or a dict with `url`/`src`/
`image_url`/`file_url` (possibly a nested locator dict). -/
def imgEntryUrl (u : JVal) : Option String :=
  match u with
  | .str s => if s ≠ "" then some s else none
  | .obj _ =>
    let url := pyOr (jGet u "url") (pyOr (jGet u "src") (pyOr (jGet u "image_url") (jGet u "file_url")))
    match url with
    | .obj _ =>
      (match pyOr (jGet url "url") (jGet url "file_url") with
       | .str s => if s ≠ "" then some s else none
       | _ => none)
    | .str s => if s ≠ "" then some s else none
    | _ => none
  | _ => none

/-- Computes `(f.get("type") or f.get("mimetype") or "").lower()` — `none` when the
truthy chain value is not a string (Python raises `AttributeError`). -/
def fileFType (f : JVal) : Option String :=
  match pyOr (jGet f "type") (pyOr (jGet f "mimetype") (.str "")) with
  | .str s => some (pyLower s)
  | _ => none

/-- Computes `f.get("url") or f.get("path") or f.get("file_url")`. -/
def fileUrlVal (f : JVal) : JVal :=
  pyOr (jGet f "url") (pyOr (jGet f "path") (jGet f "file_url"))

/-- The file filter of `collect_from_message` (lines 821-832): keep a dict
whose type starts with `image`, or whose url matches the image-extension
regex; `none` when computing the type raises. -/
def keepImageFile (f : JVal) : Option Bool :=
  match f with
  | .obj _ =>
    match fileFType f with
    | none => none
    | some ftype =>
      if strStartsWithS ftype "image" then some true
      else
        match fileUrlVal f with
        | .str s => some (hasImageExt s)
        | _ => some false
  | _ => some false

/-- Computes `str(part.get("type", "")).lower()`. -/
def ptypeOf (p : JVal) : String :=
  pyLower (pyStrOf ((jGetOpt p "type").getD (.str "")))

/-- The canonical image type tags (`image_url`, `input_image`, `image`). -/
def imageTypeMarkers : List String := ["image_url", "input_image", "image"]

/-- The content-part filter of `collect_from_message` (lines 836-845):
parts with an image type tag, or with an `image_url`/`file_url`/`url` key. -/
def keepImagePart (p : JVal) : Bool :=
  match p with
  | .obj _ =>
    ptypeOf p ∈ imageTypeMarkers || jHasKey p "image_url" || jHasKey p "file_url" || jHasKey p "url"
  | _ => false

/-- Artifacts collected from a single message by `collect_from_message`:
image urls, image file dicts, image content parts, in source order. -/
def collectFromMessage (msg : JVal) : Option (List String × List JVal × List JVal) := do
  let imgs :=
    match jGet msg "images" with
    | .list us => us.filterMap imgEntryUrl
    | _ => []
  let files ←
    match jGet msg "files" with
    | .list fs => fs.foldlM (fun acc f => do
        let keep ← keepImageFile f
        pure (if keep then acc ++ [f] else acc)) []
    | _ => pure []
  let parts :=
    match jGet msg "content" with
    | .list ps => ps.filter keepImagePart
    | _ => []
  pure (imgs, files, parts)

/-- The scan for the last (up to) five user messages (lines 784-789); the
input is the reversed message list.  Visited non-dict entries raise
(`msg.get`), modelled as `none`; entries past the fifth user message are
never visited. -/
def lastUserMsgsAux : List JVal → Nat → Option (List JVal)
  | [], _ => some []
  | m :: rest, k =>
    match m with
    | .obj _ =>
      if roleIs m "user" then
        if k + 1 ≥ 5 then some [m]
        else (lastUserMsgsAux rest (k + 1)).map (m :: ·)
      else lastUserMsgsAux rest k
    | _ => none

/-- Key used to deduplicate file dicts (lines 888-899):
`str(url or path or name)`; an all-falsy chain falls back to `id(f)`
(object identity), which never collides in this value model, modelled as
`none` (such entries are always kept). -/
def fileKey (f : JVal) : Option String :=
  let k := pyOr (jGet f "url") (pyOr (jGet f "path") (jGet f "name"))
  if truthy k then some (pyStrOf k) else none

/-- Deduplicate file dicts by `fileKey`, keeping first occurrences. -/
def dedupFiles : List JVal → List String → List JVal
  | [], _ => []
  | f :: rest, seen =>
    match fileKey f with
    | some k => if k ∈ seen then dedupFiles rest seen else f :: dedupFiles rest (k :: seen)
    | none => f :: dedupFiles rest seen

/-- The url a content part dedups under in the extractor (lines 904-912). -/
def partDedupUrl (p : JVal) : Option String :=
  let iu := jGet p "image_url"
  let url : JVal :=
    match iu with
    | .obj _ => pyOr (jGet iu "url") (jGet iu "file_url")
    | .str s => .str s
    | _ => pyOr (jGet p "url") (pyOr (jGet p "path") (jGet p "file_url"))
  match url with
  | .str s => if s ≠ "" then some s else none
  | _ => none

/-- Equality of part-dedup keys (url string or whole part). -/
def keyEq : (String ⊕ JVal) → (String ⊕ JVal) → Bool
  | .inl a, .inl b => a = b
  | .inr a, .inr b => jvalBeqF a b
  | _, _ => false

/-- Membership in the part-dedup `seen` set. -/
def keySeen (k : String ⊕ JVal) (seen : List (String ⊕ JVal)) : Bool :=
  seen.any (fun x => keyEq x k)

/-- Deduplicate content parts (lines 901-924): by resolved url when
available, else by `repr(p)` — i.e. structural equality, since `repr` is
faithful on these values.  Python keeps urls and reprs in one set; a url
string colliding with a dict repr is not representable here. -/
def dedupParts : List JVal → List (String ⊕ JVal) → List JVal
  | [], _ => []
  | p :: rest, seen =>
    match partDedupUrl p with
    | some u =>
      if keySeen (Sum.inl u) seen then dedupParts rest seen
      else p :: dedupParts rest (Sum.inl u :: seen)
    | none =>
      if keySeen (Sum.inr p) seen then dedupParts rest seen
      else p :: dedupParts rest (Sum.inr p :: seen)

/-- The extractor `_extract_image_artifacts` (lines 771-927): returns
`(has_any, image_urls, file_dicts, content_parts)`; `none` when the Python
code raises. -/
def extractImageArtifacts (body : JVal) : Option (Bool × List String × List JVal × List JVal) := do
  let messagesVal := pyOr ((jGetOpt body "messages").getD (.list [])) (.list [])
  let messages ←
    match messagesVal with
    | .list l => some l
    | _ => none   -- reversed/iteration over a truthy non-list raises
  let lastUserMsgs ← lastUserMsgsAux messages.reverse 0
  let collected ← lastUserMsgs.foldlM (fun acc m => do
    let (i, f, p) ← collectFromMessage m
    pure (acc.1 ++ i, acc.2.1 ++ f, acc.2.2 ++ p)) (([], [], []) : List String × List JVal × List JVal)
  let topImgs :=
    match jGet body "images" with
    | .list us => us.filterMap imgEntryUrl
    | _ => []
  let topFiles ←
    match jGet body "files" with
    | .list fs => fs.foldlM (fun acc f => do
        let keep ← keepImageFile f
        pure (if keep then acc ++ [f] else acc)) []
    | _ => pure []
  let imgs := dedupFirst (collected.1 ++ topImgs)
  let files := dedupFiles (collected.2.1 ++ topFiles) []
  let parts := dedupParts (collected.2.2 ++ []) []
  let hasAny := !imgs.isEmpty || !files.isEmpty || !parts.isEmpty
  pure (hasAny, imgs, files, parts)

/-! ## Image-part normalization
(`_normalize_to_image_content_parts_inline`, lines 141-194; textually
identical at lines 312-365 and, as `_norm_many`, lines 487-536) -/

/-- The canonical normalized image content part
`{"type": "image_url", "image_url": {"url": u}}`. -/
def canonPart (u : String) : JVal :=
  .obj [("type", .str "image_url"), ("image_url", .obj [("url", .str u)])]

/-- Normalization of one already-image-tagged or image-like content part
(lines 147-168). -/
def normalizeOnePart (p : JVal) : List JVal :=
  match p with
  | .obj _ =>
    let ptype := ptypeOf p
    if ptype ∈ imageTypeMarkers then
      if ptype = "image" then
        match jGet p "url" with
        | .str s => [canonPart s]
        | _ => [p]
      else [p]
    else if jHasKey p "image_url" || jHasKey p "file_url" || jHasKey p "url" then
      let u0 : JVal :=
        match jGet p "image_url" with
        | .obj kvs => jGet (.obj kvs) "url"
        | _ => .null
      match pyOr u0 (pyOr (jGet p "file_url") (jGet p "url")) with
      | .str s => if s ≠ "" then [canonPart s] else []
      | _ => []
    else []
  | _ => []

/-- The url under which the normalizer's final pass deduplicates a part
(lines 182-193): only a dict-shaped `image_url` with a non-empty string
`url` resolves; anything else leaves the part un-keyed. -/
def resolvedNormUrl (p : JVal) : Option String :=
  match jGet p "image_url" with
  | .obj kvs =>
    (match jGet (.obj kvs) "url" with
     | .str s => if s ≠ "" then some s else none
     | _ => none)
  | _ => none

/-- The normalizer's final deduplication pass (lines 182-194). -/
def dedupByUrl : List JVal → List String → List JVal
  | [], _ => []
  | p :: rest, seen =>
    match resolvedNormUrl p with
    | some u =>
      if u ∈ seen then dedupByUrl rest seen
      else p :: dedupByUrl rest (u :: seen)
    | none => p :: dedupByUrl rest seen

/-- The normalizer `_normalize_to_image_content_parts_inline` (lines 141-194). -/
def normalizeToImageContentParts (lastUserImages : List String) (lastUserFiles : List JVal)
    (contentImageParts : List JVal) : List JVal :=
  let fromParts := contentImageParts.flatMap normalizeOnePart
  let fromImgs := (lastUserImages.filter (fun s => s ≠ "")).map canonPart
  let fromFiles := lastUserFiles.filterMap (fun f =>
    match f with
    | .obj _ =>
      (match fileUrlVal f with
       | .str s => if s ≠ "" then some (canonPart s) else none
       | _ => none)
    | _ => none)
  dedupByUrl (fromParts ++ fromImgs ++ fromFiles) []

/-! ## Response-text extraction (`_extract_text_from_response`, lines 1005-1019) -/

/-- The helper `_extract_text_from_response`: `choices[0].message.content`, stripped;
every failure path (the `try`/`except` catching `.get` on non-dicts,
indexing errors, falsy values replaced by `or []`/`or {}`) yields `""`. -/
def extractTextFromResponse (resp : JVal) : String :=
  match resp with
  | .obj _ =>
    let c := jGet resp "choices"
    let choices := if truthy c then c else .list []
    if truthy choices then
      match choices with
      | .list (first :: _) =>
        (match first with
         | .obj _ =>
           let m := jGet first "message"
           let msg := if truthy m then m else .obj []
           (match msg with
            | .obj _ =>
              (match jGet msg "content" with
               | .str s => pyStripStr s
               | _ => "")
            | _ => "")
         | _ => "")
      | _ => ""
    else ""
  | _ => ""

/-- The OpenAI response shape as the specification describes it: a dict
whose `choices` is a non-empty list, whose first element is a dict, whose
`message` is a dict, whose `content` is a string.  Used only to compare
`extractTextFromResponse` against the specification's words. -/
def responseShapeContent (resp : JVal) : Option String :=
  match resp with
  | .obj _ =>
    (match jGet resp "choices" with
     | .list (first :: _) =>
       (match first with
        | .obj _ =>
          (match jGet first "message" with
           | .obj mkvs =>
             (match jGet (.obj mkvs) "content" with
              | .str s => some s
              | _ => none)
           | _ => none)
        | _ => none)
     | _ => none)
  | _ => none

/-! ## Message sanitization (`_sanitize_messages_for_main`, lines 1121-1146) -/

/-- A content part dropped by the sanitizer: a dict whose type tag is one of
the image markers. -/
def isImageTypedPart (p : JVal) : Bool :=
  match p with
  | .obj _ => ptypeOf p ∈ imageTypeMarkers
  | _ => false

/-- Sanitization of one message dict: drop `images` and `files`, and drop
image-typed parts from a list-valued `content`. -/
def sanitizeMsg (m : JVal) : JVal :=
  let m1 := jErase (jErase m "images") "files"
  match jGet m1 "content" with
  | .list ps => jSet m1 "content" (.list (ps.filter (fun p => !isImageTypedPart p)))
  | _ => m1

/-- The element loop of `_sanitize_messages_for_main`: `dict(msg)` raises on
the (non-dict) message shapes reachable here, modelled as `none`. -/
def sanitizeMsgList : List JVal → Option (List JVal)
  | [] => some []
  | m :: rest =>
    match m with
    | .obj _ => (sanitizeMsgList rest).map (sanitizeMsg m :: ·)
    | _ => none

/-- The sanitizer `_sanitize_messages_for_main` applied to the value of
`final_body.get("messages", [])` (`for msg in messages or []`). -/
def sanitizeMessagesForMain (v : JVal) : Option (List JVal) :=
  if !truthy v then some []
  else
    match v with
    | .list ms => sanitizeMsgList ms
    | _ => none

/-! ## Truncation (lines 247-265 and 604-611) -/

/-- The truncation marker appended when text is cut. -/
def truncationMarker : String := "\n\n[...truncated]"

/-- Python `s[:n]`. -/
def pyTake (s : String) (n : Nat) : String := ⟨s.data.take n⟩

/-- Python `len(s)`. -/
def pyLen (s : String) : Nat := s.data.length

/-- The preview truncation fragment (lines 250-265): guarded by the
truthiness of the configured cap (`if cap and len(s) > cap`), so a zero cap
disables preview truncation. -/
def previewTruncate (cap : Nat) (s : String) : String :=
  if cap ≠ 0 ∧ pyLen s > cap then pyTake s cap ++ truncationMarker else s

/-- The injection truncation fragment (lines 606-611): guarded by the
truthiness of the text (`if s and len(s) > cap`). -/
def injectTruncate (cap : Nat) (s : String) : String :=
  if s ≠ "" ∧ pyLen s > cap then pyTake s cap ++ truncationMarker else s

/-! ## The pipe orchestration (`Pipe.pipe`, lines 65-664)

`generate_chat_completion` is modelled by an oracle
`JVal → Except String JVal` (request body to response or raised error), the
event emitter by a boolean (present/absent; the source swallows emitter
errors, so a collecting, non-raising emitter is faithful), and `time.time()`
by a fixed per-run timestamp `t0 : Nat` (whole pipeline runs take well under
the 3-second dedup TTL). -/

/-- The configuration fields of `Pipe.Valves` exercised by the claims. -/
structure Valves where
  OCR_MODEL_ID : String
  MAIN_MODEL_ID : String
  OCR_MAX_CHARS : Nat
  OCR_DESC_MAX_CHARS : Nat
  SHOW_OCR_RESULTS : Bool

/-- The default valve values (lines 25-52). -/
def defaultValves : Valves :=
  { OCR_MODEL_ID := "gemma3:12b", MAIN_MODEL_ID := "gpt-oss:20b",
    OCR_MAX_CHARS := 50000, OCR_DESC_MAX_CHARS := 50000, SHOW_OCR_RESULTS := false }

/-- Mutable state threaded through one pipe run: the completion calls made
(in order), the events the emitter received, the status-dedup map
(`self._status_last_emit`), and `self._completion_emitted`. -/
structure RunSt where
  calls : List JVal
  events : List JVal
  emitMap : List (String × Nat)
  compEmitted : Bool

/-- The empty run state (fresh `Pipe` instance). -/
def initSt : RunSt := ⟨[], [], [], false⟩

/-- A status event payload (lines 694-703). -/
def statusEvent (desc : String) (done hidden : Bool) : JVal :=
  .obj [("type", .str "status"),
        ("data", .obj [("description", .str desc), ("done", .bool done), ("hidden", .bool hidden)])]

/-- The final clear event (lines 650-660). -/
def clearEvent : JVal :=
  .obj [("type", .str "status"),
        ("data", .obj [("description", .str "done"), ("done", .bool true),
                       ("hidden", .bool true), ("clear", .bool true)])]

/-- Dedup-map lookup (first, i.e. most recent, binding). -/
def slookup (k : String) : List (String × Nat) → Option Nat
  | [] => none
  | (k2, v) :: rest => if k2 = k then some v else slookup k rest

/-- The final-completion status markers (line 678). -/
def completionKeys : List String := ["Final answer complete.", "Answer composition finished."]

/-- The notifier `_emit_status_once` (lines 667-707): completion-marker suppression,
then a 3-second keyed dedup window; all emissions of one run share `t0`. -/
def emitStatusOnce (emitter : Bool) (t0 : Nat) (desc : String) (done hidden : Bool)
    (st : RunSt) : RunSt :=
  if !emitter then st
  else if desc ∈ completionKeys ∧ st.compEmitted then st
  else
    let st := if desc ∈ completionKeys then { st with compEmitted := true } else st
    let key := desc ++ "|" ++ (if done then "1" else "0")
    let last := (slookup key st.emitMap).getD 0
    if t0 - last < 3 then st
    else { st with events := st.events ++ [statusEvent desc done hidden],
                   emitMap := (key, t0) :: st.emitMap }

/-- The "Running OCR" status description (line 134). -/
def runningDesc (v : Valves) (n : Nat) : String :=
  "Running OCR on " ++ toString n ++ " image(s) using " ++ v.OCR_MODEL_ID ++ "..."

/-- The "Composing response" status description (line 638). -/
def composingDesc (v : Valves) : String :=
  "Composing response using " ++ v.MAIN_MODEL_ID ++ "..."

/-- The fixed OCR system instruction (lines 214, 381 and 549, identical). -/
def ocrSystemPrompt : String :=
  "You are an OCR and image-understanding assistant. Extract all visible text verbatim from the provided image.\n- Preserve natural reading order, line breaks and headings.\n- Do not translate; keep original language.\n- Additionally, when it is relevant to understanding user intent, include a detailed but concise description of the image.\n- Always format your response using this schema:\nTEXT:\n<transcribed text>\n\n---\nDESCRIPTION:\n<description or "
  ++ sq ++ "N/A" ++ sq
  ++ ">\n\n---\nCATEGORY: screenshot|document|diagram|math|slide|whiteboard|handwritten_note|photo|other"

/-- The fixed text part of the per-image OCR user turn. -/
def ocrUserTextPart : JVal :=
  .obj [("type", .str "text"), ("text", .str "Transcribe the attached image per schema.")]

/-- The request body of one per-image OCR call (lines 211-231). -/
def ocrCallBody (v : Valves) (imgPart : JVal) : JVal :=
  .obj [("model", .str v.OCR_MODEL_ID), ("stream", .bool false),
        ("messages", .list
          [.obj [("role", .str "system"), ("content", .str ocrSystemPrompt)],
           .obj [("role", .str "user"), ("content", .list [ocrUserTextPart, imgPart])]])]

/-- The counter `_count_images_for_status` (lines 91-125). -/
def countImagesForStatus (lastUserImages : List String) (lastUserFiles : List JVal)
    (contentImageParts : List JVal) : Nat :=
  let fromImgs := lastUserImages.filter (fun u => u ≠ "")
  let fromFiles := lastUserFiles.filterMap (fun f =>
    match f with
    | .obj _ =>
      (match pyOr (jGet f "url") (pyOr (jGet f "path") (jGet f "file_url")) with
       | .str s => if s ≠ "" then some s else none
       | _ => none)
    | _ => none)
  let fromParts := contentImageParts.filterMap (fun p =>
    match p with
    | .obj _ =>
      if ptypeOf p ∈ imageTypeMarkers then
        match jGet p "image_url" with
        | .obj kvs =>
          (match pyOr (jGet (.obj kvs) "url") (jGet (.obj kvs) "file_url") with
           | .str s => if s ≠ "" then some s else none
           | _ => none)
        | .str s => if s ≠ "" then some s else none
        | _ => none
      else
        match pyOr (jGet p "url") (pyOr (jGet p "path") (jGet p "file_url")) with
        | .str s => if s ≠ "" then some s else none
        | _ => none
    | _ => none)
  (dedupFirst (fromImgs ++ fromFiles ++ fromParts)).length

/-- The sequential per-image OCR loop shared by all three OCR blocks:
records every issued call (a raised call was still issued) and stops at the
first raised error; per-image triples are collected in order. -/
def runOcrLoop (v : Valves) (oracle : JVal → Except String JVal) :
    List JVal → RunSt → RunSt × Except String (List (String × String × String))
  | [], st => (st, .ok [])
  | p :: rest, st =>
    let body := ocrCallBody v p
    let st := { st with calls := st.calls ++ [body] }
    match oracle body with
    | .error e => (st, .error e)
    | .ok resp =>
      let tdc := parseOcrStructuredOutput (extractTextFromResponse resp)
      match runOcrLoop v oracle rest st with
      | (st2, .ok items) => (st2, .ok (tdc :: items))
      | (st2, .error e) => (st2, .error e)

/-- Combination of per-image results (lines 241-244 and 407-410): join
non-empty texts and descriptions with the explicit separator, deduplicate
non-empty categories preserving first-seen order, comma-join. -/
def joinResults (items : List (String × String × String)) : String × String × String :=
  (joinSep "\n\n---\n\n" ((items.map Prod.fst).filter (fun t => t ≠ "")),
   joinSep "\n\n---\n\n" ((items.map (fun i => i.2.1)).filter (fun d => d ≠ "")),
   joinSep ", " (dedupFirst ((items.map (fun i => i.2.2)).filter (fun c => c ≠ ""))))

/-- The OCR-results preview content (lines 267-289). -/
def previewContent (v : Valves) (ocrText ocrDesc ocrCategory : String) : String :=
  let previewText := previewTruncate v.OCR_MAX_CHARS ocrText
  let previewDesc := previewTruncate v.OCR_DESC_MAX_CHARS ocrDesc
  joinNL (["OCR Results"]
    ++ (if ocrCategory ≠ "" then ["Category: " ++ ocrCategory] else [])
    ++ ["", "Text:", "```", (if previewText ≠ "" then previewText else "(no visible text)"), "```"]
    ++ (if previewDesc ≠ "" then ["", "Description:", "```", previewDesc, "```"] else []))

/-- The OCR-results preview message event (lines 283-295). -/
def previewEvent (v : Valves) (t0 : Nat) (ocrText ocrDesc ocrCategory : String) : JVal :=
  .obj [("type", .str "message"),
        ("data", .obj [("id", .str ("ocr-preview-" ++ toString (t0 * 1000))),
                       ("role", .str "assistant"),
                       ("content", .str (previewContent v ocrText ocrDesc ocrCategory)),
                       ("mime_type", .str "text/markdown"),
                       ("persist", .bool true), ("replace", .bool false)])]

/-- The first OCR block (lines 86-305), entered when images were detected:
count status, per-image loop, result combination, optional preview,
completion or failure status.  The `try` covers the loop and the success
emissions; only oracle errors can raise there. -/
def stageA (v : Valves) (emitter : Bool) (t0 : Nat) (oracle : JVal → Except String JVal)
    (imgs : List String) (files cparts : List JVal) (st : RunSt) :
    RunSt × (String × String × String) :=
  let n := countImagesForStatus imgs files cparts
  let st := emitStatusOnce emitter t0 (runningDesc v n) false false st
  let parts := normalizeToImageContentParts imgs files cparts
  match runOcrLoop v oracle parts st with
  | (st, .error e) =>
    (emitStatusOnce emitter t0 ("OCR failed: " ++ e) true false st, ("", "", ""))
  | (st, .ok items) =>
    let ocr := joinResults items
    let st :=
      if emitter ∧ v.SHOW_OCR_RESULTS then
        { st with events := st.events ++ [previewEvent v t0 ocr.1 ocr.2.1 ocr.2.2] }
      else st
    let st := emitStatusOnce emitter t0 "OCR complete." true false st
    (st, ocr)

/-- The second OCR block (lines 368-412), entered when images were detected
but the first block produced an all-empty result; failures are swallowed
(`except: pass`) leaving the result empty. -/
def stageB (v : Valves) (oracle : JVal → Except String JVal) (hasImgs : Bool)
    (imgs : List String) (files cparts : List JVal) (ocr : String × String × String)
    (st : RunSt) : RunSt × (String × String × String) :=
  if hasImgs ∧ ocr = ("", "", "") then
    let parts := normalizeToImageContentParts imgs files cparts
    if parts.isEmpty then (st, ocr)
    else
      match runOcrLoop v oracle parts st with
      | (st, .ok items) => (st, joinResults items)
      | (st, .error _) => (st, ocr)
  else (st, ocr)

/-! ### Incremental OCR merge (lines 425-602) -/

/-- Backward scan for the last assistant message (lines 429-433) applied to
the reversed message list, returning the (still reversed) span of messages
after it; every visited entry must be a dict (`msgs[i].get`), else the
enclosing `try` catches, modelled `none`. -/
def spanRevAux : List JVal → Option (List JVal)
  | [] => some []
  | m :: rest =>
    match m with
    | .obj _ =>
      if roleIs m "assistant" then some []
      else (spanRevAux rest).map (m :: ·)
    | _ => none

/-- Artifacts collected from one span message (lines 440-484): image urls
(from `images` and from file urls), file dicts with an image type or any
resolvable url, and image-like content parts; `none` when computing a file
type raises. -/
def collectIncrMessage (m : JVal) : Option (List String × List JVal × List JVal) := do
  if !roleIs m "user" then
    pure ([], [], [])
  else
    let imgs :=
      match jGet m "images" with
      | .list us => us.filterMap imgEntryUrl
      | _ => []
    let fu ←
      match jGet m "files" with
      | .list fs => fs.foldlM (fun (acc : List JVal × List String) f =>
          match f with
          | .obj _ => do
            let ftype ← fileFType f
            let url := fileUrlVal f
            let urlStr : Option String :=
              match url with
              | .str s => if s ≠ "" then some s else none
              | _ => none
            if strStartsWithS ftype "image" ∨ urlStr.isSome then
              pure (acc.1 ++ [f], acc.2 ++ urlStr.toList)
            else pure acc
          | _ => pure acc) (([], []) : List JVal × List String)
      | _ => pure ([], [])
    let parts :=
      match jGet m "content" with
      | .list ps => ps.filter keepImagePart
      | _ => []
    pure (imgs ++ fu.2, fu.1, parts)

/-- Collection of "new" artifacts across the span after the last assistant
turn (lines 426-484). -/
def collectIncremental (msgs : List JVal) : Option (List String × List JVal × List JVal) := do
  let spanRev ← spanRevAux msgs.reverse
  let span := spanRev.reverse
  span.foldlM (fun acc m => do
    let (i, f, p) ← collectIncrMessage m
    pure (acc.1 ++ i, acc.2.1 ++ f, acc.2.2 ++ p))
    (([], [], []) : List String × List JVal × List JVal)

/-- Merge of incremental per-image results into the aggregate
(lines 572-599); the loop appended only truthy values, so the items are
filtered before joining. -/
def mergeIncr (ocr : String × String × String) (items : List (String × String × String)) :
    String × String × String :=
  let perTexts := (items.map Prod.fst).filter (fun t => t ≠ "")
  let perDescs := (items.map (fun i => i.2.1)).filter (fun d => d ≠ "")
  let perCats := (items.map (fun i => i.2.2)).filter (fun c => c ≠ "")
  let addText := joinSep "\n\n---\n\n" perTexts
  let addDesc := joinSep "\n\n---\n\n" perDescs
  let t := if addText ≠ "" then (if ocr.1 ≠ "" then ocr.1 ++ "\n\n---\n\n" ++ addText else addText) else ocr.1
  let d := if addDesc ≠ "" then (if ocr.2.1 ≠ "" then ocr.2.1 ++ "\n\n---\n\n" ++ addDesc else addDesc) else ocr.2.1
  let c :=
    if perCats ≠ [] then
      joinSep ", " ((dedupFirst ((if ocr.2.2 ≠ "" then [ocr.2.2] else []) ++ perCats)).filter (fun x => x ≠ ""))
    else ocr.2.2
  (t, d, c)

/-- The incremental OCR merge block (lines 425-602): entirely inside a
`try` whose failures are swallowed, leaving the aggregate unchanged (calls
already issued remain issued). -/
def stageIncr (v : Valves) (oracle : JVal → Except String JVal) (msgs : List JVal)
    (ocr : String × String × String) (st : RunSt) : RunSt × (String × String × String) :=
  match collectIncremental msgs with
  | none => (st, ocr)
  | some (urls, ifiles, iparts) =>
    let nparts := normalizeToImageContentParts urls ifiles iparts
    if nparts.isEmpty then (st, ocr)
    else
      match runOcrLoop v oracle nparts st with
      | (st, .error _) => (st, ocr)
      | (st, .ok items) => (st, mergeIncr ocr items)

/-! ### Final composition and the full pipe -/

/-- The injected OCR system message (lines 613-632). -/
def ocrContextMsg (ot od oc : String) : JVal :=
  let ls := ["Image understanding results extracted from user-provided image(s).",
             "Use these alongside the user" ++ sq ++ "s prompt to answer accurately.", ""]
    ++ (if ot ≠ "" then ["OCR_TEXT:", ot, ""] else [])
    ++ (if od ≠ "" then ["OCR_DESCRIPTION:", od, ""] else [])
    ++ (if oc ≠ "" then ["OCR_CATEGORY: " ++ oc] else [])
  .obj [("role", .str "system"), ("content", .str (pyStripStr (joinNL ls)))]

/-- Final message list (lines 604-633): when any aggregate field is
non-empty, truncate text and description and prepend the OCR system
message to the sanitized messages. -/
def composeFinalMessages (v : Valves) (ot od oc : String) (sm : List JVal) : List JVal :=
  if ot ≠ "" ∨ od ≠ "" ∨ oc ≠ "" then
    ocrContextMsg (injectTruncate v.OCR_MAX_CHARS ot) (injectTruncate v.OCR_DESC_MAX_CHARS od) oc :: sm
  else sm

/-- The final request body (lines 415-423 and 633): original body with
`model` replaced, `stream` defaulted to `True` when absent, and `messages`
replaced by the final message list. -/
def mkFinalBody (v : Valves) (body : JVal) (finalMsgs : List JVal) : JVal :=
  jSet (jSet (jSet body "model" (.str v.MAIN_MODEL_ID)) "stream"
      (if jHasKey body "stream" then jGet body "stream" else .bool true))
    "messages" (.list finalMsgs)

/-- The value of `body.get("messages", []) or []` (lines 428 and 781). -/
def msgsValOf (body : JVal) : JVal :=
  pyOr ((jGetOpt body "messages").getD (.list [])) (.list [])

/-- The message list scanned by the incremental block; by the time it runs,
`msgsValOf body` is a list or falsy (anything else made the extractor
raise). -/
def msgsListOf (body : JVal) : List JVal :=
  match msgsValOf body with
  | .list l => l
  | _ => []

/-- The trace of one pipe run: completion-funnel calls in order, emitter
events in order, and the returned value (or propagated error). -/
structure PipeTrace where
  calls : List JVal
  events : List JVal
  result : Except String JVal

/-- The orchestrator `Pipe.pipe` (lines 65-664) as a pure function of the completion oracle:
extract artifacts, run the OCR blocks, sanitize, run the incremental merge,
compose, make the final reasoning call, emit the clear event. -/
def pipeModel (v : Valves) (emitter : Bool) (t0 : Nat)
    (oracle : JVal → Except String JVal) (body : JVal) : PipeTrace :=
  match body with
  | .obj _ =>
    match extractImageArtifacts body with
    | none => ⟨[], [], .error "AttributeError"⟩
    | some (hasImgs, imgs, files, cparts) =>
      let (st, ocr) :=
        if hasImgs then stageA v emitter t0 oracle imgs files cparts initSt
        else (initSt, ("", "", ""))
      let (st, ocr) := stageB v oracle hasImgs imgs files cparts ocr st
      match sanitizeMessagesForMain (msgsValOf body) with
      | none => ⟨st.calls, st.events, .error "ValueError"⟩
      | some sm =>
        let (st, ocr) := stageIncr v oracle (msgsListOf body) ocr st
        let finalMsgs := composeFinalMessages v ocr.1 ocr.2.1 ocr.2.2 sm
        let finalBody := mkFinalBody v body finalMsgs
        let st := emitStatusOnce emitter t0 (composingDesc v) false false st
        let st := { st with calls := st.calls ++ [finalBody] }
        match oracle finalBody with
        | .error e => ⟨st.calls, st.events, .error e⟩
        | .ok r =>
          let st := if emitter then { st with events := st.events ++ [clearEvent] } else st
          ⟨st.calls, st.events, .ok r⟩
  | _ => ⟨[], [], .error "AttributeError"⟩


/-! ## Inputs and predicates used by the theorems -/

/-- The C1 counterexample request body: the locator `"u.png"` appears
simultaneously in the user message's `images` list, in a file descriptor,
and in an inline image content part whose `image_url` field holds the
locator as a plain string. -/
def c1CexBody : JVal := .obj [("messages", .list [.obj [
  ("role", .str "user"),
  ("images", .list [.str "u.png"]),
  ("files", .list [.obj [("url", .str "u.png")]]),
  ("content", .list [.obj [("type", .str "image_url"), ("image_url", .str "u.png")]])]])]

/-- A request body whose `messages` list contains a malformed (non-dict)
entry; the claim says the extractor skips it. -/
def c9FailingBody : JVal := .obj [("messages", .list [.str "oops"])]

/-- A request body whose only file descriptor carries a non-string truthy
`type` field (`5`); computing `(f.get("type") or ...).lower()` raises. -/
def c9FailingBody2 : JVal := .obj [("messages", .list [.obj
  [("role", .str "user"), ("files", .list [.obj [("type", .num 5), ("url", .str "a.png")]])]])]

/-- No image-typed content part remains in the message. -/
def noImageTypedParts (m : JVal) : Bool :=
  match jGet m "content" with
  | .list ps => ps.all (fun p => !isImageTypedPart p)
  | _ => true

/-- An oracle whose every completion call succeeds with an empty response
object. -/
def c6OkOracle : JVal → Except String JVal := fun _ => .ok (.obj [])

/-- The C6 counterexample body: a single user turn with a non-image file
(`doc.pdf`, no image type, no image extension) and no other artifacts. -/
def c6CexBody : JVal := .obj [("messages", .list [.obj [
  ("role", .str "user"), ("content", .str "hi"),
  ("files", .list [.obj [("url", .str "doc.pdf")]])]])]

/-- The C6 witness body: one user turn with no artifacts of any kind. -/
def c6WitBody : JVal := .obj [("messages", .list [.obj [
  ("role", .str "user"), ("content", .str "hi")]])]

/-- A status event reporting an OCR failure, with `done = true`. -/
def isOcrFailedStatus (ev : JVal) : Bool :=
  (match jGet ev "type" with | .str t => t = "status" | _ => false) &&
  (match jGet (jGet ev "data") "done" with | .bool b => b | _ => false) &&
  (match jGet (jGet ev "data") "description" with
   | .str d => strStartsWithS d "OCR failed"
   | _ => false)

/-- The C2 witness body and an oracle that fails exactly the vision calls. -/
def c2WitBody : JVal := .obj [("messages", .list [.obj [
  ("role", .str "user"), ("content", .str "What is this?"),
  ("images", .list [.str "http://x/img.png"])]])]

def c2FailOracle : JVal → Except String JVal := fun b =>
  match jGet b "model" with
  | .str m => if m = "gemma3:12b" then .error "boom" else .ok (.obj [])
  | _ => .ok (.obj [])

/-! ## Theorems -/

/-- Claim **C10.** Response-text extraction is total and never raises: for every
input value, `_extract_text_from_response` returns
`choices[0].message.content` stripped of surrounding whitespace when the
input is a dict matching the OpenAI response shape with a string content
(`responseShapeContent`), and returns the empty string for every other
input.  Totality is witnessed by `extractTextFromResponse` being a total
function on all of `JVal`. -/
theorem c10_extract_text_refines (resp : JVal) :
    extractTextFromResponse resp = (responseShapeContent resp).elim "" pyStripStr := by
  cases resp <;> try rfl
  case obj kvs =>
    show extractTextFromResponse (.obj kvs) = _
    rcases hc : jGet (JVal.obj kvs) "choices" with _ | b | n | s | xs | okvs <;>
      simp only [extractTextFromResponse, responseShapeContent, hc, truthy, Option.elim]
    · rfl
    · cases b <;> rfl
    · by_cases hn : n = 0 <;> simp [hn]
    · by_cases hs : s = "" <;> simp [hs]
    · cases xs with
      | nil => rfl
      | cons f rest =>
        simp only [List.isEmpty, Bool.not_false, if_true]
        cases f <;> try rfl
        case obj fkvs =>
          rcases hm : jGet (JVal.obj fkvs) "message" with _ | b2 | n2 | s2 | xs2 | mkvs <;>
            simp only [hm, truthy]
          · rfl
          · cases b2 <;> rfl
          · by_cases hn2 : n2 = 0 <;> simp [hn2, jGet, jLookup]
          · by_cases hs2 : s2 = "" <;> simp [hs2, jGet, jLookup]
          · cases xs2 <;> rfl
          · cases mkvs with
            | nil => rfl
            | cons kv mrest =>
              simp only [List.isEmpty, Bool.not_false, if_true]
              rcases hco : jGet (JVal.obj (kv :: mrest)) "content" with _ | _ | _ | s3 | _ | _ <;>
                simp [hco]
    · cases okvs with
      | nil => rfl
      | cons kv orest => rfl

/-- Claim **C3 (counterexample).** The claim maps `"Hand-Writing"` to
`handwritten_note`, but the code lowercases and replaces the hyphen first,
producing `"hand_writing"`, which is neither a synonym key (only
`"handwriting"` is) nor carries any allowed category as a prefix, so
normalization yields the empty category. -/
theorem c3_counterexample :
    normalizeCategory "Hand-Writing" = "" ∧ ("" : String) ≠ "handwritten_note" :=
  ⟨rfl, by decide⟩

/-- Claim **C3 (amended).** Category normalization is idempotent on the closed
category set (each of the nine members normalizes to itself), maps
`"WebPage"` to `screenshot` and `"banana"` to the empty category; but
`"Hand-Writing"` also normalizes to the empty category (not to
`handwritten_note` as claimed), because hyphen replacement happens before
the synonym lookup. -/
theorem c3_category_normalization_amended :
    normalizeCategory "screenshot" = "screenshot" ∧
    normalizeCategory "document" = "document" ∧
    normalizeCategory "diagram" = "diagram" ∧
    normalizeCategory "math" = "math" ∧
    normalizeCategory "slide" = "slide" ∧
    normalizeCategory "whiteboard" = "whiteboard" ∧
    normalizeCategory "handwritten_note" = "handwritten_note" ∧
    normalizeCategory "photo" = "photo" ∧
    normalizeCategory "other" = "other" ∧
    normalizeCategory "WebPage" = "screenshot" ∧
    normalizeCategory "banana" = "" ∧
    normalizeCategory "Hand-Writing" = "" :=
  ⟨rfl, rfl, rfl, rfl, rfl, rfl, rfl, rfl, rfl, rfl, rfl, rfl⟩

/-- Claim **C8 (counterexample).** With the cap configured as `0` and a non-empty
OCR text, the text's length exceeds the cap, yet the previewed value is not
truncated at all: the preview site guards on the truthiness of the cap
(`if self.valves.OCR_MAX_CHARS and ...`), so a zero cap disables preview
truncation while the injection site still truncates. -/
theorem c8_counterexample :
    pyLen "x" > 0 ∧ previewTruncate 0 "x" = "x" ∧
    previewTruncate 0 "x" ≠ pyTake "x" 0 ++ truncationMarker :=
  ⟨by decide, rfl, by decide⟩

/-- Claim **C8 (amended).** For every non-zero configured cap and every text
whose length exceeds it, both the injected and the previewed value equal the
first cap-many characters followed by the truncation marker
`"\n\n[...truncated]"`, and their length is the cap plus the marker length;
with a zero cap this holds for the injected value but not for the preview
(counterexample). -/
theorem c8_truncation_amended (cap : Nat) (s : String) (hcap : 1 ≤ cap)
    (hlen : pyLen s > cap) :
    injectTruncate cap s = pyTake s cap ++ truncationMarker ∧
    pyLen (injectTruncate cap s) = cap + pyLen truncationMarker ∧
    previewTruncate cap s = pyTake s cap ++ truncationMarker ∧
    pyLen (previewTruncate cap s) = cap + pyLen truncationMarker := by
  have hne : s ≠ "" := by
    intro h; rw [h] at hlen; simp [pyLen] at hlen
  have hc0 : cap ≠ 0 := by omega
  have h1 : injectTruncate cap s = pyTake s cap ++ truncationMarker := by
    simp [injectTruncate, hne, hlen]
  have h2 : previewTruncate cap s = pyTake s cap ++ truncationMarker := by
    simp [previewTruncate, hc0, hlen]
  have hcap_le : cap ≤ s.length := Nat.le_of_lt hlen
  have hlen2 : pyLen (pyTake s cap ++ truncationMarker) = cap + pyLen truncationMarker := by
    simp [pyLen, pyTake, String.data_append, List.length_take, Nat.min_eq_left hcap_le]
  exact ⟨h1, h1 ▸ hlen2, h2, h2 ▸ hlen2⟩

/-- Witness for `c8_truncation_amended` at cap `1` and text `"ab"`. -/
theorem c8_truncation_amended_witness :
    injectTruncate 1 "ab" = pyTake "ab" 1 ++ truncationMarker ∧
    pyLen (injectTruncate 1 "ab") = 1 + pyLen truncationMarker ∧
    previewTruncate 1 "ab" = pyTake "ab" 1 ++ truncationMarker ∧
    pyLen (previewTruncate 1 "ab") = 1 + pyLen truncationMarker :=
  c8_truncation_amended 1 "ab" (by decide) (by decide)

/-! ### Substring and strip lemmas -/

theorem listIsPref_append (p l v : List Char) (h : listIsPref p l = true) :
    listIsPref p (l ++ v) = true := by
  induction p generalizing l with
  | nil => simp [listIsPref]
  | cons a as ih =>
    cases l with
    | nil => simp [listIsPref] at h
    | cons b bs =>
      by_cases hab : a = b
      · simp only [listIsPref, hab, if_true, List.cons_append] at h ⊢
        exact ih bs h
      · simp [listIsPref, hab] at h

theorem containsSub_nil_pat (v : List Char) : containsSub [] v = true := by
  cases v <;> simp [containsSub, listIsPref]

theorem containsSub_cons (p : List Char) (c : Char) (l : List Char)
    (h : containsSub p l = true) : containsSub p (c :: l) = true := by
  simp [containsSub, h]

theorem containsSub_append_left (p u l : List Char) (h : containsSub p l = true) :
    containsSub p (u ++ l) = true := by
  induction u with
  | nil => exact h
  | cons c cs ih => exact containsSub_cons _ _ _ ih

theorem containsSub_append_right (p l v : List Char) (h : containsSub p l = true) :
    containsSub p (l ++ v) = true := by
  induction l with
  | nil =>
    simp [containsSub] at h
    simp [h, containsSub_nil_pat]
  | cons c cs ih =>
    simp only [containsSub, Bool.or_eq_true, List.cons_append] at h ⊢
    rcases h with h | h
    · exact Or.inl (listIsPref_append _ _ _ h)
    · exact Or.inr (ih h)

/-- Stripping only removes a prefix and a suffix. -/
theorem strip_decomp (l : List Char) : ∃ u w, l = u ++ stripChars l ++ w := by
  refine ⟨l.takeWhile isPySpace, ((l.dropWhile isPySpace).reverse.takeWhile isPySpace).reverse, ?_⟩
  unfold stripChars
  conv_lhs => rw [← List.takeWhile_append_dropWhile (p := isPySpace) (l := l)]
  rw [List.append_assoc]
  congr 1
  set d := l.dropWhile isPySpace with hd
  have h2 : d.reverse = d.reverse.takeWhile isPySpace ++ d.reverse.dropWhile isPySpace :=
    (List.takeWhile_append_dropWhile isPySpace d.reverse).symm
  calc d = d.reverse.reverse := by rw [List.reverse_reverse]
  _ = (d.reverse.takeWhile isPySpace ++ d.reverse.dropWhile isPySpace).reverse := by rw [← h2]
  _ = (d.reverse.dropWhile isPySpace).reverse ++ (d.reverse.takeWhile isPySpace).reverse := by
        rw [List.reverse_append]

/-- A substring of the stripped text is a substring of the text. -/
theorem containsSub_strip (p l : List Char)
    (h : containsSub p ((stripChars l).map lowerChar) = true) :
    containsSub p (l.map lowerChar) = true := by
  obtain ⟨u, w, hdec⟩ := strip_decomp l
  rw [hdec, List.map_append, List.map_append, List.append_assoc]
  exact containsSub_append_left _ _ _ (containsSub_append_right _ _ _ h)

/-- Claim **C5.** If none of the three markers `text:`, `description:`,
`category:` occurs as a case-insensitive substring of the reply, the parser
returns the trimmed input verbatim as text with empty description and
category; a non-string input or an input that strips to the empty string
yields the all-empty triple (and the parser, a total function, never
raises). -/
theorem c5_parser_fallback :
    (∀ s : String, containsSub "text:".data (s.data.map lowerChar) = false →
       containsSub "description:".data (s.data.map lowerChar) = false →
       containsSub "category:".data (s.data.map lowerChar) = false →
       parseOcrOnValue (.str s) = (pyStripStr s, "", "")) ∧
    (∀ v : JVal, (∀ t : String, v ≠ .str t) → parseOcrOnValue v = ("", "", "")) ∧
    (∀ s : String, pyStripStr s = "" → parseOcrOnValue (.str s) = ("", "", "")) := by
  refine ⟨fun s h1 h2 h3 => ?_, fun v hv => ?_, fun s hs => ?_⟩
  · show parseOcrStructuredOutput s = (pyStripStr s, "", "")
    unfold parseOcrStructuredOutput
    by_cases hraw : stripChars s.data = []
    · have hs0 : pyStripStr s = "" := by
        show (⟨stripChars s.data⟩ : String) = ""
        rw [hraw]
      simp [hraw, hs0]
    · simp only [hraw, if_false]
      have m1 : containsSub "text:".data ((stripChars s.data).map lowerChar) = false := by
        cases hc : containsSub "text:".data ((stripChars s.data).map lowerChar)
        · rfl
        · rw [containsSub_strip _ _ hc] at h1; exact absurd h1 (by simp)
      have m2 : containsSub "description:".data ((stripChars s.data).map lowerChar) = false := by
        cases hc : containsSub "description:".data ((stripChars s.data).map lowerChar)
        · rfl
        · rw [containsSub_strip _ _ hc] at h2; exact absurd h2 (by simp)
      have m3 : containsSub "category:".data ((stripChars s.data).map lowerChar) = false := by
        cases hc : containsSub "category:".data ((stripChars s.data).map lowerChar)
        · rfl
        · rw [containsSub_strip _ _ hc] at h3; exact absurd h3 (by simp)
      simp only [m1, m2, m3]
      rfl
  · cases v with
    | str t => exact absurd rfl (hv t)
    | null => rfl
    | bool b => rfl
    | num n => rfl
    | list xs => rfl
    | obj kvs => rfl
  · show parseOcrStructuredOutput s = ("", "", "")
    have hraw : stripChars s.data = [] := congrArg String.data hs
    unfold parseOcrStructuredOutput
    simp [hraw]

/-- Witness for `c5_parser_fallback`: the marker-free reply `" hello "`,
the non-string input `5`, and the whitespace-only reply `"  "`. -/
theorem c5_parser_fallback_witness :
    parseOcrOnValue (.str " hello ") = (pyStripStr " hello ", "", "") ∧
    parseOcrOnValue (.num 5) = ("", "", "") ∧
    parseOcrOnValue (.str "  ") = ("", "", "") :=
  ⟨c5_parser_fallback.1 " hello " (by decide) (by decide) (by decide),
   c5_parser_fallback.2.1 (.num 5) (fun t h => JVal.noConfusion h),
   c5_parser_fallback.2.2 "  " (by decide)⟩

/-! ### Line-splitting lemmas -/

theorem slGo_nobreak (l : List Char) (acc : List Char)
    (h : ∀ c ∈ l, isLineBreak c = false) : slGo l acc = [acc.reverse ++ l] := by
  induction l generalizing acc with
  | nil => simp [slGo]
  | cons c rest ih =>
    have hc : isLineBreak c = false := h c (by simp)
    have hcr : c ≠ '\r' := by intro he; rw [he] at hc; simp [isLineBreak] at hc
    have hrest : ∀ x ∈ rest, isLineBreak x = false := fun x hx => h x (by simp [hx])
    rw [slGo.eq_def]
    split
    · rename_i heq; cases heq
    · rename_i heq
      injection heq with h1 h2
      exact absurd h1 hcr
    · rename_i c' rest' hne heq
      injection heq with h1 h2
      subst h1; subst h2
      rw [if_neg (by simp [hc])]
      rw [ih _ hrest]
      simp

theorem slGo_line_append (l : List Char) (acc : List Char) (rest : List Char)
    (h : ∀ c ∈ l, isLineBreak c = false) :
    slGo (l ++ '\n' :: rest) acc =
      (acc.reverse ++ l) :: (match rest with | [] => [] | _ :: _ => slGo rest []) := by
  induction l generalizing acc with
  | nil =>
    show slGo ('\n' :: rest) acc = _
    rw [slGo.eq_def]
    split
    · rename_i heq; cases heq
    · rename_i heq
      injection heq with h1 h2
      exact absurd h1.symm (by decide)
    · rename_i c' rest' hne heq
      injection heq with h1 h2
      subst h1; subst h2
      rw [if_pos (by decide)]
      simp
  | cons c cs ih =>
    have hc : isLineBreak c = false := h c (by simp)
    have hcr : c ≠ '\r' := by intro he; rw [he] at hc; simp [isLineBreak] at hc
    have hrest : ∀ x ∈ cs, isLineBreak x = false := fun x hx => h x (by simp [hx])
    show slGo (c :: (cs ++ '\n' :: rest)) acc = _
    rw [slGo.eq_def]
    split
    · rename_i heq; cases heq
    · rename_i heq
      injection heq with h1 h2
      exact absurd h1 hcr
    · rename_i c' rest' hne heq
      injection heq with h1 h2
      subst h1; subst h2
      rw [if_neg (by simp [hc])]
      rw [ih _ hrest]
      simp

theorem pySplitlines_ne_nil (a : List Char) (ha : a ≠ []) : pySplitlines a = slGo a [] := by
  cases a with
  | nil => exact absurd rfl ha
  | cons c cs => rfl

theorem joinNLc_cons_ne_nil (l : List Char) (ls : List (List Char)) (hl : l ≠ []) :
    joinNLc (l :: ls) ≠ [] := by
  cases ls with
  | nil => simpa [joinNLc] using hl
  | cons l2 ls' =>
    show l ++ '\n' :: joinNLc (l2 :: ls') ≠ []
    simp

/-- Splitting the newline-join of line-break-free lines recovers the lines
(no line may be last and empty, since a trailing newline produces no final
empty line in Python). -/
theorem splitlines_joinNLc (ls : List (List Char)) (hne : ls ≠ [])
    (hnb : ∀ l ∈ ls, ∀ c ∈ l, isLineBreak c = false)
    (hlast : ls.getLast? ≠ some []) :
    pySplitlines (joinNLc ls) = ls := by
  induction ls with
  | nil => exact absurd rfl hne
  | cons l ls' ih =>
    cases ls' with
    | nil =>
      have hl : l ≠ [] := by
        intro he; rw [he] at hlast
        exact hlast (by simp)
      show pySplitlines (joinNLc [l]) = [l]
      have : joinNLc [l] = l := rfl
      rw [this, pySplitlines_ne_nil l hl, slGo_nobreak l [] (hnb l (by simp))]
      simp
    | cons l2 ls'' =>
      have hrest_ne : joinNLc (l2 :: ls'') ≠ [] := by
        cases ls'' with
        | nil =>
          have : l2 ≠ [] := by
            intro he; rw [he] at hlast
            exact hlast (by simp)
          simpa [joinNLc] using this
        | cons l3 ls''' =>
          show l2 ++ '\n' :: joinNLc (l3 :: ls''') ≠ []
          simp
      have hjoin : joinNLc (l :: l2 :: ls'') = l ++ '\n' :: joinNLc (l2 :: ls'') := rfl
      have harg_ne : joinNLc (l :: l2 :: ls'') ≠ [] := by
        rw [hjoin]
        cases l <;> simp
      rw [pySplitlines_ne_nil _ harg_ne, hjoin,
          slGo_line_append l [] (joinNLc (l2 :: ls'')) (hnb l (by simp))]
      have htail : (match joinNLc (l2 :: ls'') with
          | [] => ([] : List (List Char))
          | _ :: _ => slGo (joinNLc (l2 :: ls'')) []) = slGo (joinNLc (l2 :: ls'')) [] := by
        cases hj : joinNLc (l2 :: ls'') with
        | nil => exact absurd hj hrest_ne
        | cons a as => rfl
      rw [htail, ← pySplitlines_ne_nil _ hrest_ne]
      rw [ih (by simp) (fun x hx => hnb x (by simp [hx]))
          (by rwa [List.getLast?_cons_cons] at hlast)]
      simp

/-- On lines matching no header or category pattern, the parse loop keeps
the text section active and accumulates every non-separator line into it. -/
theorem parseLoop_plain (lines : List (List Char)) (t d : List (List Char)) (c : String)
    (h : ∀ l ∈ lines, isTextHdr l = false ∧ isDescHdr l = false ∧ catLineVal l = none) :
    parseLoop lines false t d c = (t ++ lines.filter (fun l => !isSepLine l), d, c) := by
  induction lines generalizing t with
  | nil => simp [parseLoop]
  | cons l rest ih =>
    obtain ⟨h1, h2, h3⟩ := h l (by simp)
    have hr := fun x hx => h x (List.mem_cons_of_mem _ hx)
    simp only [parseLoop, h1, h2, h3, Bool.false_eq_true, if_false]
    by_cases hsep : isSepLine l
    · rw [if_pos hsep, ih _ hr]
      simp [List.filter_cons, hsep]
    · rw [if_neg hsep, ih _ hr]
      simp [List.filter_cons, hsep]

theorem listIsPref_refl (p : List Char) : listIsPref p p = true := by
  induction p with
  | nil => rfl
  | cons a as ih => simp [listIsPref, ih]

theorem containsSub_of_pref (p l : List Char) (h : listIsPref p l = true) :
    containsSub p l = true := by
  cases l with
  | nil =>
    cases p with
    | nil => rfl
    | cons a as => simp [listIsPref] at h
  | cons c cs => simp [containsSub, h]

theorem joinNL_data (ls : List String) : (joinNL ls).data = joinNLc (ls.map String.data) := by
  induction ls with
  | nil => rfl
  | cons l ls' ih =>
    cases ls' with
    | nil => rfl
    | cons l2 ls'' =>
      show (l ++ "\n" ++ joinNL (l2 :: ls'')).data =
        l.data ++ '\n' :: joinNLc ((l2 :: ls'').map String.data)
      rw [String.data_append, String.data_append, ih]
      simp

theorem filter_map_data (f : List Char → Bool) (ls : List String) :
    (ls.map String.data).filter f = (ls.filter (fun s => f s.data)).map String.data := by
  induction ls with
  | nil => rfl
  | cons l rest ih =>
    simp only [List.map_cons, List.filter_cons]
    by_cases hf : f l.data
    · simp [hf, ih]
    · simp [hf, ih]

theorem getLast?_map_data (ls : List String) :
    (ls.map String.data).getLast? = ls.getLast?.map String.data := by
  induction ls with
  | nil => rfl
  | cons a as ih =>
    cases as with
    | nil => rfl
    | cons b bs =>
      rw [List.map_cons, List.map_cons, List.getLast?_cons_cons, List.getLast?_cons_cons,
          ← List.map_cons]
      exact ih

/-- Claim **C4 (counterexample).** The reply `"Intro\nTEXT:\nHello"` contains a
`TEXT:` marker (as a case-insensitive substring, and as a marker line) and
neither a `DESCRIPTION:` nor a `CATEGORY:` marker, yet the parsed text is
`"Intro\nHello"`, not the content following the marker (`"Hello"`): lines
before the first `TEXT:` marker are accumulated into the text section too,
because the default active section is `text`. -/
theorem c4_counterexample :
    containsSub "text:".data (("Intro\nTEXT:\nHello" : String).data.map lowerChar) = true ∧
    containsSub "description:".data (("Intro\nTEXT:\nHello" : String).data.map lowerChar) = false ∧
    containsSub "category:".data (("Intro\nTEXT:\nHello" : String).data.map lowerChar) = false ∧
    parseOcrStructuredOutput "Intro\nTEXT:\nHello" = ("Intro\nHello", "", "") ∧
    ("Intro\nHello" : String) ≠ "Hello" :=
  ⟨by decide, by decide, by decide, rfl, by decide⟩

/-- Claim **C4 (amended).** For every reply whose first line is the `TEXT:`
marker and whose remaining lines match no marker pattern (no text or
description header, no category line; the reply already trimmed and with no
trailing empty line), the parser returns empty description and category,
and the text equals the lines following the marker with separator lines
(exactly three dashes) removed, joined and trimmed.  When content precedes
the marker, or the marker carries its value inline, the parsed text
differs (counterexample). -/
theorem c4_text_only_amended (rest : List String)
    (hnb : ∀ l ∈ rest, ∀ c ∈ l.data, isLineBreak c = false)
    (hlast : rest.getLast? ≠ some "")
    (hstrip : pyStripStr (joinNL ("TEXT:" :: rest)) = joinNL ("TEXT:" :: rest))
    (hplain : ∀ l ∈ rest, isTextHdr l.data = false ∧ isDescHdr l.data = false ∧
        catLineVal l.data = none) :
    parseOcrStructuredOutput (joinNL ("TEXT:" :: rest)) =
      (pyStripStr (joinNL (rest.filter (fun l => !isSepLine l.data))), "", "") := by
  set s := joinNL ("TEXT:" :: rest) with hs
  have hdata : s.data = joinNLc ("TEXT:".data :: rest.map String.data) := by
    rw [hs, joinNL_data]; rfl
  have hstripL : stripChars s.data = s.data := congrArg String.data hstrip
  have hne : s.data ≠ [] := by
    rw [hdata]
    exact joinNLc_cons_ne_nil _ _ (by decide)
  have hmk : containsSub "text:".data (s.data.map lowerChar) = true := by
    obtain ⟨tail, htail⟩ : ∃ tail, s.data = "TEXT:".data ++ tail := by
      rw [hdata]
      cases rest with
      | nil => exact ⟨[], rfl⟩
      | cons a as => exact ⟨'\n' :: joinNLc ((a :: as).map String.data), rfl⟩
    rw [htail, List.map_append]
    have hlow : ("TEXT:".data).map lowerChar = "text:".data := by decide
    rw [hlow]
    exact containsSub_of_pref _ _ (listIsPref_append _ _ _ (listIsPref_refl _))
  have hsplit : pySplitlines s.data = "TEXT:".data :: rest.map String.data := by
    rw [hdata]
    apply splitlines_joinNLc
    · simp
    · intro l hl
      rcases List.mem_cons.mp hl with h | h
      · subst h; decide
      · obtain ⟨x, hx, hxd⟩ := List.mem_map.mp h
        subst hxd; exact hnb x hx
    · cases rest with
      | nil => simp
      | cons a as =>
        rw [List.map_cons, List.getLast?_cons_cons, ← List.map_cons, getLast?_map_data]
        intro hcon
        obtain ⟨x, hx1, hx2⟩ := Option.map_eq_some'.mp hcon
        have : x = "" := by
          cases x with
          | mk d => cases hx2; rfl
        rw [this] at hx1
        exact hlast hx1
  unfold parseOcrStructuredOutput
  rw [hstripL]
  rw [if_neg hne]
  simp only [hmk, Bool.true_or, Bool.not_true, Bool.false_eq_true, if_false, hsplit]
  have hhdr : isTextHdr "TEXT:".data = true := by decide
  simp only [parseLoop, hhdr, if_true]
  rw [parseLoop_plain _ _ _ _ (fun l hl => by
    obtain ⟨x, hx, hxd⟩ := List.mem_map.mp hl
    subst hxd; exact hplain x hx)]
  rw [filter_map_data]
  have hrhs : pyStripStr (joinNL (rest.filter (fun l => !isSepLine l.data))) =
      ⟨stripChars (joinNLc ((rest.filter (fun l => !isSepLine l.data)).map String.data))⟩ := by
    show (⟨stripChars (joinNL (rest.filter (fun l => !isSepLine l.data))).data⟩ : String) = _
    rw [joinNL_data]
  rw [hrhs]
  simp [joinNLc, stripChars, emptyDescMarkers, pyLower]

/-- Witness for `c4_text_only_amended`: the reply
`"TEXT:\nHello\n---\nWorld"`, whose parsed text is `"Hello\nWorld"`. -/
theorem c4_text_only_amended_witness :
    parseOcrStructuredOutput (joinNL ("TEXT:" :: ["Hello", "---", "World"])) =
      (pyStripStr (joinNL (["Hello", "---", "World"].filter (fun l => !isSepLine l.data))), "", "") :=
  c4_text_only_amended ["Hello", "---", "World"] (by decide) (by decide) (by decide) (by decide)

/-! ### Normalizer deduplication lemmas -/

theorem dedupByUrl_cons_none (p : JVal) (rest : List JVal) (seen : List String)
    (h : resolvedNormUrl p = none) :
    dedupByUrl (p :: rest) seen = p :: dedupByUrl rest seen := by
  simp only [dedupByUrl]
  split
  · rename_i u' heq; rw [h] at heq; cases heq
  · rfl

theorem dedupByUrl_cons_some_seen (p : JVal) (rest : List JVal) (seen : List String)
    (u' : String) (h : resolvedNormUrl p = some u') (hs : u' ∈ seen) :
    dedupByUrl (p :: rest) seen = dedupByUrl rest seen := by
  simp only [dedupByUrl]
  split
  · rename_i u'' heq
    rw [h] at heq
    injection heq with he
    subst he
    rw [if_pos hs]
  · rename_i heq; rw [h] at heq; cases heq

theorem dedupByUrl_cons_some_new (p : JVal) (rest : List JVal) (seen : List String)
    (u' : String) (h : resolvedNormUrl p = some u') (hs : u' ∉ seen) :
    dedupByUrl (p :: rest) seen = p :: dedupByUrl rest (u' :: seen) := by
  simp only [dedupByUrl]
  split
  · rename_i u'' heq
    rw [h] at heq
    injection heq with he
    subst he
    rw [if_neg hs]
  · rename_i heq; rw [h] at heq; cases heq

theorem dedupByUrl_count_seen (l : List JVal) (seen : List String) (u : String) (hu : u ∈ seen) :
    List.countP (fun p => decide (resolvedNormUrl p = some u)) (dedupByUrl l seen) = 0 := by
  induction l generalizing seen with
  | nil => rfl
  | cons p rest ih =>
    rcases hr : resolvedNormUrl p with _ | u'
    · rw [dedupByUrl_cons_none p rest seen hr, List.countP_cons]
      simp [hr, ih seen hu]
    · by_cases hs : u' ∈ seen
      · rw [dedupByUrl_cons_some_seen p rest seen u' hr hs]
        exact ih seen hu
      · have hne : u' ≠ u := fun he => hs (he ▸ hu)
        rw [dedupByUrl_cons_some_new p rest seen u' hr hs, List.countP_cons]
        simp [hr, hne, ih (u' :: seen) (List.mem_cons_of_mem _ hu)]

theorem dedupByUrl_count (l : List JVal) (seen : List String) (u : String) (hu : u ∉ seen) :
    List.countP (fun p => decide (resolvedNormUrl p = some u)) (dedupByUrl l seen) =
      if l.any (fun p => decide (resolvedNormUrl p = some u)) then 1 else 0 := by
  induction l generalizing seen with
  | nil => simp [dedupByUrl]
  | cons p rest ih =>
    rw [List.any_cons]
    rcases hr : resolvedNormUrl p with _ | u'
    · rw [dedupByUrl_cons_none p rest seen hr, List.countP_cons]
      simp [hr, ih seen hu]
    · by_cases hs : u' ∈ seen
      · have hne : u' ≠ u := fun he => hu (he ▸ hs)
        rw [dedupByUrl_cons_some_seen p rest seen u' hr hs, ih seen hu]
        simp [hr, hne]
      · rw [dedupByUrl_cons_some_new p rest seen u' hr hs, List.countP_cons]
        by_cases heq : u' = u
        · subst heq
          rw [dedupByUrl_count_seen rest (u' :: seen) u' (by simp)]
          simp [hr]
        · rw [ih (u' :: seen) (by simp [hu, Ne.symm heq])]
          simp [hr, heq]

theorem resolvedNormUrl_canonPart (u : String) (hune : u ≠ "") :
    resolvedNormUrl (canonPart u) = some u := by
  simp [resolvedNormUrl, canonPart, jGet, jLookup, hune]


/-- Claim **C1 (amended).** For every locator present in the images list handed to
normalization, the normalized parts contain exactly one content part whose
dict-shaped `image_url` resolves to that locator (the deduplication-pass
invariant); but a content part holding the same locator as a plain string in
its `image_url` field is not deduplicated against it and survives as a
second part carrying the locator (counterexample), so "exactly one Image
Reference" holds only for the resolvable shape. -/
theorem c1_dedup_amended (u : String) (imgs : List String) (files cparts : List JVal)
    (humem : u ∈ imgs) (hune : u ≠ "") :
    List.countP (fun p => decide (resolvedNormUrl p = some u))
      (normalizeToImageContentParts imgs files cparts) = 1 := by
  unfold normalizeToImageContentParts
  rw [dedupByUrl_count _ [] u (by simp)]
  rw [if_pos]
  apply List.any_eq_true.mpr
  refine ⟨canonPart u, ?_, by simp [resolvedNormUrl_canonPart u hune]⟩
  apply List.mem_append_left
  apply List.mem_append_right
  exact List.mem_map.mpr ⟨u, List.mem_filter.mpr ⟨humem, by simp [hune]⟩, rfl⟩

/-- Claim **C1 (counterexample).** On `c1CexBody` the extractor keeps all three
artifacts, and normalization yields two content parts both carrying the
locator `"u.png"` (the original string-shaped part and the canonical part
built from the images list), so the per-image OCR loop issues two vision
calls for one locator: the final dedup pass only resolves locators held in
dict-shaped `image_url` fields. -/
theorem c1_counterexample :
    extractImageArtifacts c1CexBody =
      some (true, ["u.png"], [.obj [("url", .str "u.png")]],
        [.obj [("type", .str "image_url"), ("image_url", .str "u.png")]]) ∧
    normalizeToImageContentParts ["u.png"] [.obj [("url", .str "u.png")]]
        [.obj [("type", .str "image_url"), ("image_url", .str "u.png")]] =
      [.obj [("type", .str "image_url"), ("image_url", .str "u.png")], canonPart "u.png"] ∧
    (normalizeToImageContentParts ["u.png"] [.obj [("url", .str "u.png")]]
        [.obj [("type", .str "image_url"), ("image_url", .str "u.png")]]).length ≠ 1 :=
  ⟨by rfl, by rfl, by decide⟩

/-- Witness for `c1_dedup_amended` at locator `"a.png"`. -/
theorem c1_dedup_amended_witness :
    List.countP (fun p => decide (resolvedNormUrl p = some "a.png"))
      (normalizeToImageContentParts ["a.png"] [] []) = 1 :=
  c1_dedup_amended "a.png" ["a.png"] [] [] (by decide) (by decide)

/-- Claim **C9 (code evaluated at the failing inputs).** The extractor is not
total on malformed input: a non-dict entry in `messages` makes
`msg.get("role")` raise `AttributeError`, and a file dict whose `type` is a
truthy non-string makes `( ... ).lower()` raise, both modelled as `none` —
the claim (and the specification's extractor failure semantics, which the
rest of the code's pervasive `isinstance` guards clearly intend) says these
entries are silently skipped. -/
theorem c9_extractor_raises :
    extractImageArtifacts c9FailingBody = none ∧
    extractImageArtifacts c9FailingBody2 = none :=
  ⟨rfl, rfl⟩

/-! ### Sanitization and composition lemmas -/

theorem jLookup_jSetList (kvs : List (String × JVal)) (k : String) (x : JVal) :
    jLookup k (jSetList kvs k x) = some x := by
  induction kvs with
  | nil => simp [jSetList, jLookup]
  | cons kv rest ih =>
    obtain ⟨k2, v⟩ := kv
    by_cases hk : k2 = k
    · simp [jSetList, jLookup, hk]
    · simp [jSetList, jLookup, hk, ih]

theorem jGet_jSet (kvs : List (String × JVal)) (k : String) (x : JVal) :
    jGet (jSet (.obj kvs) k x) k = x := by
  simp [jSet, jGet, jLookup_jSetList]

theorem jHasKey_jSet_ne (kvs : List (String × JVal)) (k k' : String) (x : JVal) (hne : k ≠ k') :
    jHasKey (jSet (.obj kvs) k x) k' = jHasKey (.obj kvs) k' := by
  simp only [jSet, jHasKey]
  induction kvs with
  | nil => simp [jSetList, hne]
  | cons kv rest ih =>
    obtain ⟨k2, v⟩ := kv
    by_cases hk : k2 = k
    · simp [jSetList, hk]
    · simp [jSetList, hk, ih]

theorem jHasKey_jErase_self (m : JVal) (k : String) : jHasKey (jErase m k) k = false := by
  cases m <;> simp [jErase, jHasKey]

theorem jHasKey_jErase_false (m : JVal) (k k' : String) (h : jHasKey m k' = false) :
    jHasKey (jErase m k) k' = false := by
  cases m with
  | obj kvs =>
    simp only [jErase, jHasKey, List.any_eq_false] at h ⊢
    intro x hx
    exact h x (List.mem_of_mem_filter hx)
  | null => exact h
  | bool b => exact h
  | num n => exact h
  | str s => exact h
  | list xs => exact h

theorem jErase_obj (kvs : List (String × JVal)) (k : String) :
    ∃ kvs2, jErase (.obj kvs) k = .obj kvs2 := ⟨_, rfl⟩

theorem sanitizeMsg_clean (kvs : List (String × JVal)) :
    jHasKey (sanitizeMsg (.obj kvs)) "images" = false ∧
    jHasKey (sanitizeMsg (.obj kvs)) "files" = false ∧
    noImageTypedParts (sanitizeMsg (.obj kvs)) = true := by
  unfold sanitizeMsg
  obtain ⟨kvs1, h1⟩ := jErase_obj kvs "images"
  rw [h1]
  obtain ⟨kvs2, h2⟩ := jErase_obj kvs1 "files"
  rw [h2]
  have him : jHasKey (JVal.obj kvs2) "images" = false := by
    rw [← h2]
    apply jHasKey_jErase_false
    rw [← h1]
    exact jHasKey_jErase_self _ _
  have hfi : jHasKey (JVal.obj kvs2) "files" = false := by
    rw [← h2]
    exact jHasKey_jErase_self _ _
  dsimp only
  cases hc : jGet (JVal.obj kvs2) "content" with
  | list ps =>
    refine ⟨?_, ?_, ?_⟩
    · rw [jHasKey_jSet_ne kvs2 "content" "images" _ (by decide)]
      exact him
    · rw [jHasKey_jSet_ne kvs2 "content" "files" _ (by decide)]
      exact hfi
    · unfold noImageTypedParts
      rw [jGet_jSet]
      simp only [List.all_eq_true]
      intro p hp
      have := List.of_mem_filter hp
      simpa using this
  | null => exact ⟨him, hfi, by unfold noImageTypedParts; rw [hc]⟩
  | bool b => exact ⟨him, hfi, by unfold noImageTypedParts; rw [hc]⟩
  | num n => exact ⟨him, hfi, by unfold noImageTypedParts; rw [hc]⟩
  | str s => exact ⟨him, hfi, by unfold noImageTypedParts; rw [hc]⟩
  | obj o => exact ⟨him, hfi, by unfold noImageTypedParts; rw [hc]⟩

theorem sanitizeMsgList_objs (msgs : List JVal)
    (hobj : ∀ m ∈ msgs, ∃ kvs, m = JVal.obj kvs) :
    sanitizeMsgList msgs = some (msgs.map sanitizeMsg) := by
  induction msgs with
  | nil => rfl
  | cons m rest ih =>
    obtain ⟨kvs, hk⟩ := hobj m (by simp)
    subst hk
    simp only [sanitizeMsgList, List.map_cons]
    rw [ih (fun x hx => hobj x (by simp [hx]))]
    rfl

theorem ocrContextMsg_clean (ot od oc : String) :
    jGet (ocrContextMsg ot od oc) "role" = .str "system" ∧
    jHasKey (ocrContextMsg ot od oc) "images" = false ∧
    jHasKey (ocrContextMsg ot od oc) "files" = false ∧
    noImageTypedParts (ocrContextMsg ot od oc) = true := by
  refine ⟨rfl, rfl, rfl, rfl⟩


/-- Claim **C7.** When the aggregate OCR text is non-empty, composing the final
body (sanitizing every message and prepending the OCR system message)
yields a message list one longer than the input whose head is the injected
system message, in which no message has an `images` key, a `files` key, or
an image-typed content part. -/
theorem c7_compose_round_trip (v : Valves) (msgs : List JVal) (ot od oc : String)
    (hot : ot ≠ "") (hobj : ∀ m ∈ msgs, ∃ kvs, m = JVal.obj kvs) :
    ∃ sm, sanitizeMessagesForMain (.list msgs) = some sm ∧
      composeFinalMessages v ot od oc sm =
        ocrContextMsg (injectTruncate v.OCR_MAX_CHARS ot)
          (injectTruncate v.OCR_DESC_MAX_CHARS od) oc :: sm ∧
      (composeFinalMessages v ot od oc sm).length = msgs.length + 1 ∧
      jGet (ocrContextMsg (injectTruncate v.OCR_MAX_CHARS ot)
          (injectTruncate v.OCR_DESC_MAX_CHARS od) oc) "role" = .str "system" ∧
      ∀ m ∈ composeFinalMessages v ot od oc sm,
        jHasKey m "images" = false ∧ jHasKey m "files" = false ∧
        noImageTypedParts m = true := by
  refine ⟨msgs.map sanitizeMsg, ?_, ?_, ?_, (ocrContextMsg_clean _ _ _).1, ?_⟩
  · cases msgs with
    | nil => rfl
    | cons m rest =>
      show sanitizeMessagesForMain (.list (m :: rest)) = _
      unfold sanitizeMessagesForMain
      rw [if_neg (by simp [truthy])]
      exact sanitizeMsgList_objs _ hobj
  · simp [composeFinalMessages, hot]
  · simp [composeFinalMessages, hot]
  · intro m hm
    rw [show composeFinalMessages v ot od oc (msgs.map sanitizeMsg) =
        ocrContextMsg (injectTruncate v.OCR_MAX_CHARS ot)
          (injectTruncate v.OCR_DESC_MAX_CHARS od) oc :: msgs.map sanitizeMsg by
      simp [composeFinalMessages, hot]] at hm
    rcases List.mem_cons.mp hm with h | h
    · subst h
      exact (ocrContextMsg_clean _ _ _).2
    · obtain ⟨m0, hm0, hms⟩ := List.mem_map.mp h
      obtain ⟨kvs, hk⟩ := hobj m0 hm0
      subst hk
      subst hms
      exact sanitizeMsg_clean kvs

/-- Witness for `c7_compose_round_trip` on a one-message conversation
carrying an image, with OCR text `"T"`. -/
theorem c7_compose_round_trip_witness :
    ∃ sm, sanitizeMessagesForMain (.list [.obj [("role", .str "user"),
        ("content", .str "hi"), ("images", .list [.str "u.png"])]]) = some sm ∧
      composeFinalMessages defaultValves "T" "" "" sm =
        ocrContextMsg (injectTruncate defaultValves.OCR_MAX_CHARS "T")
          (injectTruncate defaultValves.OCR_DESC_MAX_CHARS "") "" :: sm ∧
      (composeFinalMessages defaultValves "T" "" "" sm).length =
        [JVal.obj [("role", .str "user"), ("content", .str "hi"),
          ("images", .list [.str "u.png"])]].length + 1 ∧
      jGet (ocrContextMsg (injectTruncate defaultValves.OCR_MAX_CHARS "T")
          (injectTruncate defaultValves.OCR_DESC_MAX_CHARS "") "") "role" = .str "system" ∧
      ∀ m ∈ composeFinalMessages defaultValves "T" "" "" sm,
        jHasKey m "images" = false ∧ jHasKey m "files" = false ∧
        noImageTypedParts m = true :=
  c7_compose_round_trip defaultValves
    [.obj [("role", .str "user"), ("content", .str "hi"), ("images", .list [.str "u.png"])]]
    "T" "" "" (by decide)
    (fun m hm => by
      simp only [List.mem_singleton] at hm
      subst hm
      exact ⟨_, rfl⟩)

/-! ### The C6 scenario: zero extractor artifacts -/


/-- The run state is unchanged in its calls by any status emission. -/
theorem emitStatusOnce_calls (e : Bool) (t0 : Nat) (d : String) (dn h : Bool) (st : RunSt) :
    (emitStatusOnce e t0 d dn h st).calls = st.calls := by
  simp only [emitStatusOnce]
  split_ifs <;> rfl


/-- Claim **C6 (counterexample).** On `c6CexBody` the extractor finds zero image
artifacts (`has_images = false`), yet the run issues two completion calls:
the incremental-merge block treats any user file with a resolvable url as a
new image (its guard is `... or (isinstance(url, str) and url)`), so a
vision call for `doc.pdf` is made before the final reasoning call. -/
theorem c6_counterexample :
    extractImageArtifacts c6CexBody = some (false, [], [], []) ∧
    (pipeModel defaultValves false 3 c6OkOracle c6CexBody).calls.map (fun b => jGet b "model") =
      [.str "gemma3:12b", .str "gpt-oss:20b"] ∧
    (pipeModel defaultValves false 3 c6OkOracle c6CexBody).calls.length ≠ 1 :=
  ⟨by rfl, by rfl, by decide⟩


/-- Claim **C6 (amended).** For every request body with zero extractor artifacts
(`has_images = false`) *and* zero artifacts under the incremental block's
looser criteria (no images entries, files with any resolvable url, or
image-like content parts in the user messages after the last assistant
turn), the run issues no vision call: the only completion call is the
single final reasoning call, whose response is returned.  The extra
hypothesis is necessary (counterexample). -/
theorem c6_no_artifacts_amended (v : Valves) (body : JVal) (t0 : Nat) (emitter : Bool)
    (oracle : JVal → Except String JVal) (r : JVal) (sm : List JVal)
    (hobj : ∃ kvs, body = JVal.obj kvs)
    (hex : extractImageArtifacts body = some (false, [], [], []))
    (hsan : sanitizeMessagesForMain (msgsValOf body) = some sm)
    (hincr : ∀ urls ifiles iparts,
       collectIncremental (msgsListOf body) = some (urls, ifiles, iparts) →
       normalizeToImageContentParts urls ifiles iparts = [])
    (hr : oracle (mkFinalBody v body sm) = .ok r) :
    (pipeModel v emitter t0 oracle body).calls = [mkFinalBody v body sm] ∧
    (pipeModel v emitter t0 oracle body).result = .ok r := by
  obtain ⟨kvs, hbk⟩ := hobj
  subst hbk
  unfold pipeModel
  rw [hex]
  dsimp only
  rw [if_neg (by simp)]
  dsimp only
  have hB : stageB v oracle false [] [] [] ("", "", "") initSt = (initSt, ("", "", "")) := by
    unfold stageB
    rw [if_neg (by simp)]
  rw [hB]
  rw [hsan]
  dsimp only
  have hI : stageIncr v oracle (msgsListOf (JVal.obj kvs)) ("", "", "") initSt =
      (initSt, ("", "", "")) := by
    unfold stageIncr
    cases hc : collectIncremental (msgsListOf (JVal.obj kvs)) with
    | none => rfl
    | some t =>
      obtain ⟨urls, ifiles, iparts⟩ := t
      dsimp only
      rw [hincr urls ifiles iparts hc]
      rfl
  rw [hI]
  dsimp only
  have hcomp : composeFinalMessages v "" "" "" sm = sm := by
    unfold composeFinalMessages
    rw [if_neg (by simp)]
  rw [hcomp]
  set st1 := emitStatusOnce emitter t0 (composingDesc v) false false initSt with hst1
  have hc1 : st1.calls = [] := by
    rw [hst1, emitStatusOnce_calls]
    rfl
  rw [hr]
  dsimp only
  constructor
  · cases emitter <;> simp [hc1]
  · cases emitter <;> rfl

/-- Witness for `c6_no_artifacts_amended` on `c6WitBody`. -/
theorem c6_no_artifacts_amended_witness :
    (pipeModel defaultValves true 3 c6OkOracle c6WitBody).calls =
      [mkFinalBody defaultValves c6WitBody
        [.obj [("role", .str "user"), ("content", .str "hi")]]] ∧
    (pipeModel defaultValves true 3 c6OkOracle c6WitBody).result = .ok (.obj []) :=
  c6_no_artifacts_amended defaultValves c6WitBody 3 true c6OkOracle (.obj [])
    [.obj [("role", .str "user"), ("content", .str "hi")]]
    ⟨_, rfl⟩ (by rfl) (by rfl)
    (fun urls ifiles iparts h => by
      have h2 : some (([], [], []) : List String × List JVal × List JVal) =
          some (urls, ifiles, iparts) := h
      cases h2
      rfl)
    (by rfl)

/-! ### The C2 scenario: every vision call raises -/

theorem str_head_ne (a b : String) (c1 c2 : Char) (h1 : a.data.head? = some c1)
    (h2 : b.data.head? = some c2) (hc : c1 ≠ c2) : a ≠ b := by
  intro he; rw [he, h2] at h1; exact hc (Option.some.inj h1).symm

theorem slookup_cons_ne (k k1 : String) (v1 : Nat) (rest : List (String × Nat))
    (h : k1 ≠ k) : slookup k ((k1, v1) :: rest) = slookup k rest := by
  simp [slookup, h]

theorem runningDesc_head (v : Valves) (n : Nat) : (runningDesc v n).data.head? = some 'R' := rfl

theorem composingDesc_head (v : Valves) : (composingDesc v).data.head? = some 'C' := rfl

theorem failedDesc_head (e : String) : ("OCR failed: " ++ e).data.head? = some 'O' := rfl

theorem append_key_head (d : String) (t : String) (c : Char) (h : d.data.head? = some c) :
    (d ++ "|" ++ t).data.head? = some c := by
  cases d with
  | mk l =>
    cases l with
    | nil => simp at h
    | cons a as =>
      injection h with h1
      subst h1
      rfl

theorem runningDesc_not_completion (v : Valves) (n : Nat) : runningDesc v n ∉ completionKeys := by
  intro h
  simp only [completionKeys, List.mem_cons, List.mem_singleton] at h
  rcases h with h | h | h
  · exact str_head_ne _ "Final answer complete." 'R' 'F' (runningDesc_head v n) rfl (by decide) h
  · exact str_head_ne _ "Answer composition finished." 'R' 'A' (runningDesc_head v n) rfl (by decide) h
  · exact List.not_mem_nil _ h

theorem composingDesc_not_completion (v : Valves) : composingDesc v ∉ completionKeys := by
  intro h
  simp only [completionKeys, List.mem_cons, List.mem_singleton] at h
  rcases h with h | h | h
  · exact str_head_ne _ "Final answer complete." 'C' 'F' (composingDesc_head v) rfl (by decide) h
  · exact str_head_ne _ "Answer composition finished." 'C' 'A' (composingDesc_head v) rfl (by decide) h
  · exact List.not_mem_nil _ h

theorem failedDesc_not_completion (e : String) : ("OCR failed: " ++ e) ∉ completionKeys := by
  intro h
  simp only [completionKeys, List.mem_cons, List.mem_singleton] at h
  rcases h with h | h | h
  · exact str_head_ne _ "Final answer complete." 'O' 'F' (failedDesc_head e) rfl (by decide) h
  · exact str_head_ne _ "Answer composition finished." 'O' 'A' (failedDesc_head e) rfl (by decide) h
  · exact List.not_mem_nil _ h

/-- An emission on a fresh key with a sane clock appends the status event. -/
theorem emitStatusOnce_new (t0 : Nat) (d : String) (dn h : Bool) (st : RunSt)
    (hd : d ∉ completionKeys)
    (hk : slookup (d ++ "|" ++ (if dn then "1" else "0")) st.emitMap = none)
    (ht : 3 ≤ t0) :
    emitStatusOnce true t0 d dn h st =
      { st with events := st.events ++ [statusEvent d dn h],
                emitMap := (d ++ "|" ++ (if dn then "1" else "0"), t0) :: st.emitMap } := by
  unfold emitStatusOnce
  rw [if_neg (by simp)]
  rw [if_neg (by simp [hd])]
  rw [if_neg hd]
  dsimp only
  rw [hk]
  rw [if_neg (by simp; omega)]

theorem ocrCallBody_model (v : Valves) (p : JVal) :
    jGet (ocrCallBody v p) "model" = JVal.str v.OCR_MODEL_ID := rfl

theorem runOcrLoop_fail (v : Valves) (oracle : JVal → Except String JVal) (e : String)
    (p : JVal) (ps : List JVal) (st : RunSt)
    (hov : ∀ b, jGet b "model" = JVal.str v.OCR_MODEL_ID → oracle b = .error e) :
    runOcrLoop v oracle (p :: ps) st =
      ({ st with calls := st.calls ++ [ocrCallBody v p] }, .error e) := by
  have h := hov (ocrCallBody v p) (ocrCallBody_model v p)
  simp only [runOcrLoop, h]

theorem stageA_fail (v : Valves) (t0 : Nat) (oracle : JVal → Except String JVal)
    (imgs : List String) (files cparts : List JVal) (p : JVal) (ps : List JVal) (e : String)
    (hn : normalizeToImageContentParts imgs files cparts = p :: ps)
    (hov : ∀ b, jGet b "model" = JVal.str v.OCR_MODEL_ID → oracle b = .error e)
    (ht : 3 ≤ t0) :
    stageA v true t0 oracle imgs files cparts initSt =
      ({ calls := [ocrCallBody v p],
         events := [statusEvent (runningDesc v (countImagesForStatus imgs files cparts)) false false,
                    statusEvent ("OCR failed: " ++ e) true false],
         emitMap := [("OCR failed: " ++ e ++ "|" ++ "1", t0),
                     (runningDesc v (countImagesForStatus imgs files cparts) ++ "|" ++ "0", t0)],
         compEmitted := false }, ("", "", "")) := by
  unfold stageA
  dsimp only
  rw [emitStatusOnce_new t0 _ false false initSt
    (runningDesc_not_completion v (countImagesForStatus imgs files cparts)) rfl ht]
  rw [hn, runOcrLoop_fail v oracle e p ps _ hov]
  dsimp only
  rw [emitStatusOnce_new t0 _ true false _
    (failedDesc_not_completion e) ?_ ht]
  · dsimp only [initSt]
    simp
  · dsimp only [initSt]
    rw [slookup_cons_ne]
    · rfl
    · exact str_head_ne _ _ 'R' 'O'
        (append_key_head _ _ 'R' (runningDesc_head v _)) (append_key_head _ _ 'O' (failedDesc_head e))
        (by decide)

theorem stageB_fail (v : Valves) (oracle : JVal → Except String JVal)
    (imgs : List String) (files cparts : List JVal) (p : JVal) (ps : List JVal)
    (e : String) (st : RunSt)
    (hn : normalizeToImageContentParts imgs files cparts = p :: ps)
    (hov : ∀ b, jGet b "model" = JVal.str v.OCR_MODEL_ID → oracle b = .error e) :
    stageB v oracle true imgs files cparts ("", "", "") st =
      ({ st with calls := st.calls ++ [ocrCallBody v p] }, ("", "", "")) := by
  unfold stageB
  rw [if_pos ⟨rfl, rfl⟩]
  dsimp only
  rw [hn]
  rw [if_neg (by simp)]
  rw [runOcrLoop_fail v oracle e p ps st hov]

theorem stageIncr_fail (v : Valves) (oracle : JVal → Except String JVal)
    (msgs : List JVal) (ocr : String × String × String) (st : RunSt) (e : String)
    (hov : ∀ b, jGet b "model" = JVal.str v.OCR_MODEL_ID → oracle b = .error e) :
    ∃ extra, stageIncr v oracle msgs ocr st =
        ({ st with calls := st.calls ++ extra }, ocr) ∧
      ∀ b ∈ extra, jGet b "model" = JVal.str v.OCR_MODEL_ID := by
  unfold stageIncr
  cases hc : collectIncremental msgs with
  | none =>
    refine ⟨[], ?_, by simp⟩
    simp
  | some t =>
    obtain ⟨urls, ifiles, iparts⟩ := t
    dsimp only
    cases hnp : normalizeToImageContentParts urls ifiles iparts with
    | nil =>
      refine ⟨[], ?_, by simp⟩
      simp
    | cons q qs =>
      rw [runOcrLoop_fail v oracle e q qs st hov]
      refine ⟨[ocrCallBody v q], ?_, ?_⟩
      · simp
      · intro b hb
        rw [List.mem_singleton] at hb
        subst hb
        exact ocrCallBody_model v q

theorem isOcrFailedStatus_not_done (d : String) (h : Bool) :
    isOcrFailedStatus (statusEvent d false h) = false := by
  simp [isOcrFailedStatus, statusEvent, jGet, jLookup]

theorem isOcrFailedStatus_clear : isOcrFailedStatus clearEvent = false := by decide

theorem isOcrFailedStatus_failed (e : String) :
    isOcrFailedStatus (statusEvent ("OCR failed: " ++ e) true false) = true := rfl


/-- Claim **C2.** If every vision-model completion call raises during the OCR
stage (the oracle errors on every request addressed to the vision model),
the pipeline still issues the final reasoning call with the image-stripped
conversation and returns its response; the aggregate OCR result degrades to
all-empty, so no OCR system message is injected (the final body's messages
are exactly the sanitized ones); and the emitter receives exactly one
failure status event with `done = true` (`"OCR failed: ..."`), among the
Running/failed/Composing/clear events of the run.  The OCR failure never
propagates: the result is the reasoning call's response. -/
theorem c2_ocr_failure_degrades (v : Valves) (body : JVal) (p : JVal) (ps : List JVal)
    (imgs : List String) (files cparts sm : List JVal)
    (e : String) (r : JVal) (t0 : Nat) (oracle : JVal → Except String JVal)
    (hobj : ∃ kvs, body = JVal.obj kvs)
    (hex : extractImageArtifacts body = some (true, imgs, files, cparts))
    (hn : normalizeToImageContentParts imgs files cparts = p :: ps)
    (hsan : sanitizeMessagesForMain (msgsValOf body) = some sm)
    (hov : ∀ b, jGet b "model" = JVal.str v.OCR_MODEL_ID → oracle b = .error e)
    (hof : oracle (mkFinalBody v body sm) = .ok r)
    (ht : 3 ≤ t0) :
    (pipeModel v true t0 oracle body).result = .ok r ∧
    (∃ pre, (pipeModel v true t0 oracle body).calls = pre ++ [mkFinalBody v body sm] ∧
        ∀ b ∈ pre, jGet b "model" = JVal.str v.OCR_MODEL_ID) ∧
    (pipeModel v true t0 oracle body).events =
      [statusEvent (runningDesc v (countImagesForStatus imgs files cparts)) false false,
       statusEvent ("OCR failed: " ++ e) true false,
       statusEvent (composingDesc v) false false,
       clearEvent] ∧
    List.countP isOcrFailedStatus (pipeModel v true t0 oracle body).events = 1 := by
  obtain ⟨kvs, hbk⟩ := hobj
  subst hbk
  have key_cf : (composingDesc v ++ "|" ++ "0") ≠ ("OCR failed: " ++ e ++ "|" ++ "1") :=
    str_head_ne _ _ 'C' 'O'
      (append_key_head _ _ 'C' (composingDesc_head v)) (append_key_head _ _ 'O' (failedDesc_head e))
      (by decide)
  have key_cr : (composingDesc v ++ "|" ++ "0") ≠
      (runningDesc v (countImagesForStatus imgs files cparts) ++ "|" ++ "0") :=
    str_head_ne _ _ 'C' 'R'
      (append_key_head _ _ 'C' (composingDesc_head v))
      (append_key_head _ _ 'R' (runningDesc_head v _)) (by decide)
  unfold pipeModel
  rw [hex]
  dsimp only
  rw [if_pos rfl]
  rw [stageA_fail v t0 oracle imgs files cparts p ps e hn hov ht]
  dsimp only
  rw [stageB_fail v oracle imgs files cparts p ps e _ hn hov]
  dsimp only
  rw [hsan]
  dsimp only
  obtain ⟨extra, hIncr, hextra⟩ :=
    stageIncr_fail v oracle (msgsListOf (JVal.obj kvs)) ("", "", "") _ e hov
  rw [hIncr]
  dsimp only
  have hcomp : composeFinalMessages v "" "" "" sm = sm := by
    unfold composeFinalMessages
    rw [if_neg (by simp)]
  rw [hcomp]
  rw [emitStatusOnce_new t0 (composingDesc v) false false _ (composingDesc_not_completion v)
    (by
      show slookup (composingDesc v ++ "|" ++ "0")
          [("OCR failed: " ++ e ++ "|" ++ "1", t0),
           (runningDesc v (countImagesForStatus imgs files cparts) ++ "|" ++ "0", t0)] = none
      rw [slookup_cons_ne _ _ _ _ (Ne.symm key_cf), slookup_cons_ne _ _ _ _ (Ne.symm key_cr)]
      rfl) ht]
  dsimp only
  rw [hof]
  dsimp only
  rw [if_pos rfl]
  refine ⟨rfl, ⟨[ocrCallBody v p] ++ [ocrCallBody v p] ++ extra, by simp, ?_⟩, by simp, ?_⟩
  · intro b hb
    simp only [List.mem_append, List.mem_singleton] at hb
    rcases hb with (hb | hb) | hb
    · subst hb; exact ocrCallBody_model v p
    · subst hb; exact ocrCallBody_model v p
    · exact hextra b hb
  · simp [List.countP_cons, isOcrFailedStatus_not_done, isOcrFailedStatus_clear,
      isOcrFailedStatus_failed]


/-- Witness for `c2_ocr_failure_degrades`: one image, an oracle failing
every vision call with `"boom"`. -/
theorem c2_ocr_failure_degrades_witness :
    (pipeModel defaultValves true 3 c2FailOracle c2WitBody).result = .ok (.obj []) ∧
    (∃ pre, (pipeModel defaultValves true 3 c2FailOracle c2WitBody).calls =
        pre ++ [mkFinalBody defaultValves c2WitBody
          [.obj [("role", .str "user"), ("content", .str "What is this?")]]] ∧
        ∀ b ∈ pre, jGet b "model" = JVal.str defaultValves.OCR_MODEL_ID) ∧
    (pipeModel defaultValves true 3 c2FailOracle c2WitBody).events =
      [statusEvent (runningDesc defaultValves
          (countImagesForStatus ["http://x/img.png"] [] [])) false false,
       statusEvent ("OCR failed: " ++ "boom") true false,
       statusEvent (composingDesc defaultValves) false false,
       clearEvent] ∧
    List.countP isOcrFailedStatus (pipeModel defaultValves true 3 c2FailOracle c2WitBody).events = 1 :=
  c2_ocr_failure_degrades defaultValves c2WitBody (canonPart "http://x/img.png") []
    ["http://x/img.png"] [] []
    [.obj [("role", .str "user"), ("content", .str "What is this?")]]
    "boom" (.obj []) 3 c2FailOracle
    ⟨_, rfl⟩ (by rfl) (by rfl) (by rfl)
    (fun b hb => by
      show c2FailOracle b = .error "boom"
      unfold c2FailOracle
      rw [hb]
      rfl)
    (by rfl) (by decide)

end OWUI
